import Mathlib

/-!
remote-job-seeker: fetch, normalise and aggregate job feeds.

A shallow embedding of `main.go`: the `Job` record, the three formatters
(`GitHubFormatter`, `StackOverflowFormatter`, `RemoteOkFormatter`), `fetch`,
`writeJson` and the goroutine fan-out of `main`.

Library code the program calls is modelled as follows.
* `time.Parse` is written out for the layout elements of the three layouts the
  formatters pass to it (namespace `time`), after `time/format.go` of Go 1.22.
* `strings.TrimSpace` is written out (namespace `strings`).
* `encoding/json`, `encoding/xml` decoding, `net/http` and the file system are
  fields of an environment `Env`; every theorem holds for every environment.
-/

set_option maxRecDepth 100000

/-! ## Package time -/

namespace time

/-- Location of a `Time`: UTC, or a zone fixed at `offset` seconds east of UTC. -/
inductive Location where
  | UTC
  | fixed (offset : Int)
deriving DecidableEq, Repr

/-- Go's `time.Time` as an instant: `sec` seconds and `nsec` nanoseconds since
January 1, year 1, 00:00:00 UTC, shown in location `loc`. -/
structure Time where
  sec : Int
  nsec : Int
  loc : Location
deriving DecidableEq, Repr

/-- The zero value `Time{}`. -/
def Time.zero : Time := ⟨0, 0, Location.UTC⟩

/-- `Time.IsZero`: the instant January 1, year 1, 00:00:00 UTC. -/
def Time.IsZero (t : Time) : Bool := t.sec == 0 && t.nsec == 0

/-- Seconds from January 1, year 1 to January 1, 1970 (`unixToInternal`). -/
def unixToInternal : Int := 62135596800

/-- `Time.Unix`: seconds since January 1, 1970 UTC. -/
def Time.Unix (t : Time) : Int := t.sec - unixToInternal

/-- `Time.Equal`: the same instant, whatever the location. -/
def Time.Equal (t u : Time) : Bool := t.sec == u.sec && t.nsec == u.nsec

/-- The layout elements (`std` chunk codes of `nextStdChunk`) that occur in the
layouts of this program. -/
inductive Std where
  | stdLongYear
  | stdMonth
  | stdZeroMonth
  | stdWeekDay
  | stdUnderDay
  | stdZeroDay
  | stdHour
  | stdZeroMinute
  | stdZeroSecond
  | stdNumColonTZ
deriving DecidableEq, Repr

/-- A layout cut into chunks as `nextStdChunk` cuts it: each element is the
literal text before a layout element and the element; `rest` is the literal
text after the last element. -/
structure Layout where
  chunks : List (List Char × Std)
  rest : List Char

/-- Chunks of `"Mon Jan _2 15:04:05 UTC 2006"`. -/
def layoutGitHub : Layout :=
  { chunks := [([], Std.stdWeekDay), ([' '], Std.stdMonth), ([' '], Std.stdUnderDay),
      ([' '], Std.stdHour), ([':'], Std.stdZeroMinute), ([':'], Std.stdZeroSecond),
      ([' ', 'U', 'T', 'C', ' '], Std.stdLongYear)],
    rest := [] }

/-- Chunks of `"Mon, _2 Jan 2006 15:04:05 Z"`. -/
def layoutStackOverflow : Layout :=
  { chunks := [([], Std.stdWeekDay), ([',', ' '], Std.stdUnderDay), ([' '], Std.stdMonth),
      ([' '], Std.stdLongYear), ([' '], Std.stdHour), ([':'], Std.stdZeroMinute),
      ([':'], Std.stdZeroSecond)],
    rest := [' ', 'Z'] }

/-- Chunks of `"2006-01-02T15:04:05-07:00"`. -/
def layoutRemoteOk : Layout :=
  { chunks := [([], Std.stdLongYear), (['-'], Std.stdZeroMonth), (['-'], Std.stdZeroDay),
      (['T'], Std.stdHour), ([':'], Std.stdZeroMinute), ([':'], Std.stdZeroSecond),
      ([], Std.stdNumColonTZ)],
    rest := [] }

/-- The short weekday names. -/
def shortDayNames : List (List Char) :=
  [['S','u','n'], ['M','o','n'], ['T','u','e'], ['W','e','d'], ['T','h','u'],
   ['F','r','i'], ['S','a','t']]

/-- The short month names. -/
def shortMonthNames : List (List Char) :=
  [['J','a','n'], ['F','e','b'], ['M','a','r'], ['A','p','r'], ['M','a','y'], ['J','u','n'],
   ['J','u','l'], ['A','u','g'], ['S','e','p'], ['O','c','t'], ['N','o','v'], ['D','e','c']]

/-- Is the character a decimal digit. -/
def isDigitChar (c : Char) : Bool := '0'.toNat ≤ c.toNat && c.toNat ≤ '9'.toNat

/-- `isDigit(s, i)`: is `s[i]` in range and a decimal digit. -/
def isDigit (s : List Char) (i : Nat) : Bool :=
  match s.get? i with
  | some c => isDigitChar c
  | none => false

/-- Value of the digit `c`, that is `c - '0'`. -/
def digitVal (c : Char) : Int := (c.toNat : Int) - ('0'.toNat : Int)

/-- `getnum(s, fixed)`: a leading one- or two-digit number; with `fixed` it has
to be two digits. -/
def getnum (s : List Char) (fixed : Bool) : Option (Int × List Char) :=
  if !isDigit s 0 then none
  else if !isDigit s 1 then
    if fixed then none else some (digitVal (s.getD 0 '0'), s.drop 1)
  else some (digitVal (s.getD 0 '0') * 10 + digitVal (s.getD 1 '0'), s.drop 2)

/-- `leadingInt` followed by the test that nothing is left, on an unsigned
string: the value of a string of digits. -/
def atoiDigits : List Char → Int → Option Int
  | [], acc => some acc
  | c :: cs, acc => if isDigitChar c then atoiDigits cs (acc * 10 + digitVal c) else none

/-- `atoi(s)`: an optional sign, then digits only up to the end. -/
def atoi (s : List Char) : Option Int :=
  match s with
  | '-' :: cs => (atoiDigits cs 0).map (fun x => -x)
  | '+' :: cs => atoiDigits cs 0
  | _ => atoiDigits s 0

/-- `cutspace(s)`: drop the leading spaces. -/
def cutspace (s : List Char) : List Char := s.dropWhile (fun c => c == ' ')

/-- The loop of `skip`, with the number of iterations left. -/
def skipLoop : Nat → List Char → List Char → Option (List Char)
  | _, value, [] => some value
  | 0, _, _ :: _ => none
  | n + 1, value, p :: ps =>
    if p == ' ' then
      if value.length > 0 && value.head? != some ' ' then none
      else skipLoop n (cutspace value) (cutspace (p :: ps))
    else if value.length == 0 || value.head? != some p then none
    else skipLoop n (value.drop 1) ps

/-- `skip(value, pfx)`: remove the literal `pfx` from the front of `value`; a
space in `pfx` stands for any run of spaces. Every iteration shortens `pfx`,
so `pfx.length` iterations are enough. -/
def skip (value pfx : List Char) : Option (List Char) :=
  skipLoop pfx.length value pfx

/-- `match(s1, s2)`: equal ignoring ASCII case, for strings of one length. -/
def matchFold : List Char → List Char → Bool
  | c1 :: s1, c2 :: s2 =>
    if c1 != c2 then
      let l1 := c1.toNat ||| 0x20
      let l2 := c2.toNat ||| 0x20
      if l1 != l2 || l1 < 'a'.toNat || l1 > 'z'.toNat then false
      else matchFold s1 s2
    else matchFold s1 s2
  | _, _ => true

/-- The loop of `lookup` from index `i` on. -/
def lookupFrom : List (List Char) → Nat → List Char → Option (Nat × List Char)
  | [], _, _ => none
  | v :: tab, i, val =>
    if val.length ≥ v.length && matchFold (val.take v.length) v then
      some (i, val.drop v.length)
    else lookupFrom tab (i + 1) val

/-- `lookup(tab, val)`: the first name of `tab` that `val` starts with. -/
def lookup (tab : List (List Char)) (val : List Char) : Option (Nat × List Char) :=
  lookupFrom tab 0 val

/-- `commaOrPeriod(b)`. -/
def commaOrPeriod (c : Char) : Bool := c == '.' || c == ','

/-- Number of leading digits of `s`. -/
def digitRun : List Char → Nat
  | [] => 0
  | c :: cs => if isDigitChar c then digitRun cs + 1 else 0

/-- `parseNanoseconds(value, nbytes)`: `value` starts with a comma or period
followed by `nbytes - 1` digits; at most nine digits count. -/
def parseNanoseconds (value : List Char) (nbytes : Nat) : Option Int :=
  if !commaOrPeriod (value.getD 0 ' ') then none
  else
    let nb := if nbytes > 10 then 10 else nbytes
    match atoi ((value.take nb).drop 1) with
    | none => none
    | some ns => some (ns * 10 ^ (10 - nb))

/-- `daysBefore[m]`: days in a non-leap year before month `m + 1`. -/
def daysBefore : List Int := [0, 31, 59, 90, 120, 151, 181, 212, 243, 273, 304, 334, 365]

/-- `isLeap(year)`. -/
def isLeap (year : Int) : Bool := year % 4 == 0 && (year % 100 != 0 || year % 400 == 0)

/-- `daysIn(m, year)`. -/
def daysIn (m : Int) (year : Int) : Int :=
  if m == 2 && isLeap year then 29
  else daysBefore.getD m.toNat 0 - daysBefore.getD (m.toNat - 1) 0

/-- The year of the absolute epoch (`absoluteZeroYear`). -/
def absoluteZeroYear : Int := -292277022399

/-- Seconds from the absolute epoch to January 1, year 1 (`absoluteToInternal`). -/
def absoluteToInternal : Int := -9223371966579724800

/-- `daysSinceEpoch(year)`: days from the absolute epoch to January 1 of
`year`, by 400-, 100- and 4-year cycles. -/
def daysSinceEpoch (year : Int) : Int :=
  let y := year - absoluteZeroYear
  let n400 := y / 400
  let y1 := y - 400 * n400
  let d1 := 146097 * n400
  let n100 := y1 / 100
  let y2 := y1 - 100 * n100
  let d2 := d1 + 36524 * n100
  let n4 := y2 / 4
  let y3 := y2 - 4 * n4
  let d3 := d2 + 1461 * n4
  d3 + 365 * y3

/-- `norm(hi, lo, base)`: bring `lo` into `[0, base)`, carrying into `hi`. -/
def norm (hi lo base : Int) : Int × Int :=
  let (hi1, lo1) :=
    if lo < 0 then
      let n := (-lo - 1) / base + 1
      (hi - n, lo + n * base)
    else (hi, lo)
  if lo1 ≥ base then
    let n := lo1 / base
    (hi1 + n, lo1 - n * base)
  else (hi1, lo1)

/-- `Date(year, month, day, hour, min, sec, nsec, UTC)`. -/
def Date (year month day hour min sec nsec : Int) : Time :=
  let (year, m) := norm year (month - 1) 12
  let month := m + 1
  let (sec, nsec) := norm sec nsec 1000000000
  let (min, sec) := norm min sec 60
  let (hour, min) := norm hour min 60
  let (day, hour) := norm day hour 24
  let d := daysSinceEpoch year
  let d := d + daysBefore.getD (month - 1).toNat 0
  let d := if isLeap year && month ≥ 3 then d + 1 else d
  let d := d + (day - 1)
  let abs := d * 86400 + (hour * 3600 + min * 60 + sec)
  ⟨abs + absoluteToInternal, nsec, Location.UTC⟩

/-- The variables of `parse`: the time being constructed and the text left. -/
structure Fields where
  year : Int
  month : Int
  day : Int
  hour : Int
  min : Int
  sec : Int
  nsec : Int
  zoneOffset : Int
  value : List Char
deriving DecidableEq, Repr

/-- Initial values of the variables of `parse`. -/
def Fields.init (value : List Char) : Fields :=
  { year := 0, month := -1, day := -1, hour := 0, min := 0, sec := 0, nsec := 0,
    zoneOffset := -1, value := value }

/-- One case of the `switch std & stdMask` of `parse`; `none` is the error
return (a bad value or one out of range). -/
def parseStd (std : Std) (f : Fields) : Option Fields :=
  let value := f.value
  match std with
  | Std.stdLongYear =>
    if value.length < 4 || !isDigit value 0 then none
    else
      match atoi (value.take 4) with
      | none => none
      | some y => some { f with year := y, value := value.drop 4 }
  | Std.stdMonth =>
    match lookup shortMonthNames value with
    | none => none
    | some (m, v) => some { f with month := (m : Int) + 1, value := v }
  | Std.stdZeroMonth =>
    match getnum value true with
    | none => none
    | some (m, v) => if m ≤ 0 || 12 < m then none else some { f with month := m, value := v }
  | Std.stdWeekDay =>
    match lookup shortDayNames value with
    | none => none
    | some (_, v) => some { f with value := v }
  | Std.stdUnderDay =>
    let value := if value.length > 0 && value.head? == some ' ' then value.drop 1 else value
    match getnum value false with
    | none => none
    | some (d, v) => some { f with day := d, value := v }
  | Std.stdZeroDay =>
    match getnum value true with
    | none => none
    | some (d, v) => some { f with day := d, value := v }
  | Std.stdHour =>
    match getnum value false with
    | none => none
    | some (h, v) => if h < 0 || 24 ≤ h then none else some { f with hour := h, value := v }
  | Std.stdZeroMinute =>
    match getnum value true with
    | none => none
    | some (m, v) => if m < 0 || 60 ≤ m then none else some { f with min := m, value := v }
  | Std.stdZeroSecond =>
    match getnum value true with
    | none => none
    | some (s, v) =>
      if s < 0 || 60 ≤ s then none
      else if v.length ≥ 2 && commaOrPeriod (v.getD 0 ' ') && isDigit v 1 then
        -- a fractional second in the value and none in the layout
        let n := 2 + digitRun (v.drop 2)
        match parseNanoseconds v n with
        | none => none
        | some ns => some { f with sec := s, nsec := ns, value := v.drop n }
      else some { f with sec := s, value := v }
  | Std.stdNumColonTZ =>
    if value.length < 6 then none
    else if value.getD 3 ' ' != ':' then none
    else
      match getnum ((value.drop 1).take 2) true with
      | none => none
      | some (hr, _) =>
        match getnum ((value.drop 4).take 2) true with
        | none => none
        | some (mm, _) =>
          if hr > 24 || mm > 60 then none
          else
            let off := (hr * 60 + mm) * 60
            if value.getD 0 ' ' == '+' then
              some { f with zoneOffset := off, value := value.drop 6 }
            else if value.getD 0 ' ' == '-' then
              some { f with zoneOffset := -off, value := value.drop 6 }
            else none

/-- The loop of `parse` over the chunks of the layout. -/
def parseChunks : List (List Char × Std) → Fields → Option Fields
  | [], f => some f
  | (pfx, std) :: cs, f =>
    match skip f.value pfx with
    | none => none
    | some v =>
      match parseStd std { f with value := v } with
      | none => none
      | some g => parseChunks cs g

/-- `time.Parse(layout, value)` for a layout given by its chunks. `none` is an
error return, with which Go returns `Time{}`. A time parsed with a numeric
offset is given the fixed zone of that offset (Go uses the local zone instead
when it has the same offset at that instant: the same instant either way). -/
def Parse (layout : Layout) (value : String) : Option Time :=
  match parseChunks layout.chunks (Fields.init value.toList) with
  | none => none
  | some f =>
    match skip f.value layout.rest with
    | none => none
    | some v =>
      if v.length != 0 then none
      else
        let month := if f.month < 0 then 1 else f.month
        let day := if f.day < 0 then 1 else f.day
        if day < 1 || day > daysIn month f.year then none
        else if f.zoneOffset != -1 then
          let t := Date f.year month day f.hour f.min f.sec f.nsec
          some { t with sec := t.sec - f.zoneOffset, loc := Location.fixed f.zoneOffset }
        else some (Date f.year month day f.hour f.min f.sec f.nsec)

end time

/-! ## Package strings and unicode -/

namespace unicode

/-- `unicode.IsSpace`: the Latin-1 spaces and the other White_Space code points. -/
def IsSpace (r : Char) : Bool :=
  let n := r.toNat
  if n ≤ 0xFF then
    n == 0x09 || n == 0x0A || n == 0x0B || n == 0x0C || n == 0x0D || n == 0x20 ||
      n == 0x85 || n == 0xA0
  else
    n == 0x1680 || (0x2000 ≤ n && n ≤ 0x200A) || n == 0x2028 || n == 0x2029 ||
      n == 0x202F || n == 0x205F || n == 0x3000

end unicode

namespace strings

/-- `strings.TrimSpace` on the characters of a string: drop the leading, then
the trailing white space. -/
def trimSpaceChars (s : List Char) : List Char :=
  ((s.dropWhile unicode.IsSpace).reverse.dropWhile unicode.IsSpace).reverse

/-- `strings.TrimSpace(s)`. -/
def TrimSpace (s : String) : String := String.mk (trimSpaceChars s.toList)

end strings

/-! ## Data model -/

/-- A byte slice (`[]byte`); the nil slice is the empty list. -/
abbrev Bytes := List UInt8

/-- A Go slice value: `none` is the nil slice, `some l` a non-nil slice with
the elements `l`. -/
abbrev Slice (α : Type) := Option (List α)

/-- Elements of a slice. -/
def Slice.elems {α : Type} (s : Slice α) : List α := s.getD []

/-- `len(s)`. -/
def Slice.len {α : Type} (s : Slice α) : Nat := s.elems.length

/-- `append(s, xs...)`: with nothing to add the slice is returned as it is,
nil included. -/
def append {α : Type} (s : Slice α) (xs : List α) : Slice α :=
  match xs with
  | [] => s
  | _ :: _ => some (s.elems ++ xs)

/-- The `Job` struct. -/
structure Job where
  ID : String
  DateString : String
  Date : time.Time
  Company : String
  CompanyURL : String
  Location : String
  Position : String
  Apply : String
  Source : String
  Description : String
deriving DecidableEq, Repr

/-- How a call ends: it returns, or the process is ended by `log.Fatal`, or by
a run-time panic. -/
inductive Outcome (α : Type) where
  | returned (a : α)
  | fatal (err : String)
  | panicked (msg : String)
deriving DecidableEq, Repr

/-- Apply `f` to the returned value. -/
def Outcome.map {α β : Type} (f : α → β) : Outcome α → Outcome β
  | Outcome.returned a => Outcome.returned (f a)
  | Outcome.fatal e => Outcome.fatal e
  | Outcome.panicked m => Outcome.panicked m

/-- The message of the nil pointer panic. -/
def nilDeref : String := "runtime error: invalid memory address or nil pointer dereference"

namespace RemoteOkFormatter

/-- The local `job` struct of `RemoteOkFormatter.Format`. -/
structure job where
  ID : String
  DateString : String
  Date : time.Time
  Position : String
  Company : String
  Source : String
  Apply : String
  Description : String
deriving DecidableEq, Repr

end RemoteOkFormatter

/-- The body of an HTTP response as a reader: successive reads give `chunks`,
then `io.EOF` when `err` is `none`, and the error otherwise. -/
structure Body where
  chunks : List Bytes
  err : Option String

/-- The fields of `http.Response` that `fetch` reads. -/
structure Response where
  StatusCode : Int
  Status : String
  Body : Body

/-- What the program takes from outside: the decoders of `encoding/json` and
`encoding/xml` at the types the formatters decode into, `http.Get`,
`os.Create` and the JSON encoding of one `Job`. A pointer `*Job` is an
`Option Job` (`none` is nil); every decoded pointer is to a struct of its own. -/
structure Env where
  /-- Outcome of `json.NewDecoder(bytes.NewReader(res)).Decode(&jobs)` and the
  value of `jobs` after it. -/
  jsonDecode : Bytes → Except String (Slice (Option Job))
  /-- Outcome of `xml.NewDecoder(bytes.NewReader(res)).Decode(&rss)` for
  `XMLRss` and the value of `rss.Channel.JobsList` after it. -/
  xmlDecode : Bytes → Except String (Slice (Option Job))
  /-- The same for the local `xmlrss` of `RemoteOkFormatter.Format`. -/
  xmlDecodeRemoteOk : Bytes → Except String (Slice (Option RemoteOkFormatter.job))
  /-- Outcome of `http.Get(url)`. -/
  httpGet : String → Except String Response
  /-- Does `os.Create("jobs.json")` succeed. -/
  createOk : Bool
  /-- The JSON text of one `Job`, or the error of marshalling it. -/
  marshalJob : Job → Except String String

/-! ## fetch -/

/-- `http.StatusOK`. -/
def StatusOK : Int := 200

/-- The loop of `io.Copy(&data, resp.Body)`: every chunk read is written to the
buffer. -/
def copyChunks : List Bytes → Bytes → Bytes
  | [], data => data
  | c :: cs, data => copyChunks cs (data ++ c)

/-- `io.Copy(&data, resp.Body)` into an empty buffer: the buffer afterwards and
the error (`io.EOF` is no error). -/
def ioCopy (body : Body) : Bytes × Option String :=
  (copyChunks body.chunks [], body.err)

/-- `fetch(url)`: the bytes and the error returned. -/
def fetch (env : Env) (url : String) : Bytes × Option String :=
  match env.httpGet url with
  | Except.error err => ([], some err)
  | Except.ok resp =>
    if resp.StatusCode != StatusOK then ([], some resp.Status)
    else
      match ioCopy resp.Body with
      | (_, some err) => ([], some err)
      | (data, none) => (data, none)

/-! ## Formatters -/

namespace GitHubFormatter

/-- The source label. -/
def label : String := "Github Jobs"

/-- The body of the loop for one record: parse the date, set `Date` and `Source`. -/
def stamp (j : Job) : Job :=
  let t := (time.Parse time.layoutGitHub j.DateString).getD time.Time.zero
  { j with Date := t, Source := label }

/-- The loop `for _, j := range jobs`; reading `j.DateString` of a nil `j` panics. -/
def loop : List (Option Job) → Outcome (List (Option Job))
  | [] => Outcome.returned []
  | none :: _ => Outcome.panicked nilDeref
  | some j :: js => (loop js).map (fun rs => some (stamp j) :: rs)

/-- `(*GitHubFormatter).Format(res)`. -/
def Format (env : Env) (res : Bytes) : Outcome (Slice (Option Job)) :=
  match env.jsonDecode res with
  | Except.error err => Outcome.fatal err
  | Except.ok none => Outcome.returned none
  | Except.ok (some jobs) => (loop jobs).map some

end GitHubFormatter

namespace StackOverflowFormatter

/-- The source label. -/
def label : String := "Stack Overflow"

/-- The body of the loop for one record. -/
def stamp (j : Job) : Job :=
  let t := (time.Parse time.layoutStackOverflow j.DateString).getD time.Time.zero
  { j with Date := t, Source := label }

/-- The loop `for _, j := range jobs`. -/
def loop : List (Option Job) → Outcome (List (Option Job))
  | [] => Outcome.returned []
  | none :: _ => Outcome.panicked nilDeref
  | some j :: js => (loop js).map (fun rs => some (stamp j) :: rs)

/-- `(*StackOverflowFormatter).Format(res)`. -/
def Format (env : Env) (res : Bytes) : Outcome (Slice (Option Job)) :=
  match env.xmlDecode res with
  | Except.error err => Outcome.fatal err
  | Except.ok none => Outcome.returned none
  | Except.ok (some jobs) => (loop jobs).map some

end StackOverflowFormatter

namespace RemoteOkFormatter

/-- The source label. -/
def label : String := "RemoteOK Jobs"

/-- The body of the loop for one item: parse the date, set `Date` and `Source`
on the item, and build the `Job` with the trimmed fields. -/
def build (j : job) : Job :=
  let t := (time.Parse time.layoutRemoteOk j.DateString).getD time.Time.zero
  let j := { j with Date := t, Source := label }
  { ID := strings.TrimSpace j.ID,
    DateString := j.DateString,
    Date := j.Date,
    Company := strings.TrimSpace j.Company,
    CompanyURL := "",
    Location := "",
    Position := strings.TrimSpace j.Position,
    Apply := strings.TrimSpace j.Apply,
    Source := strings.TrimSpace j.Source,
    Description := j.Description }

/-- The loop `for _, j := range jobs` with `data` as it stands. -/
def loop : List (Option job) → Slice (Option Job) → Outcome (Slice (Option Job))
  | [], data => Outcome.returned data
  | none :: _, _ => Outcome.panicked nilDeref
  | some j :: js, data => loop js (append data [some (build j)])

/-- `(*RemoteOkFormatter).Format(res)`. -/
def Format (env : Env) (res : Bytes) : Outcome (Slice (Option Job)) :=
  match env.xmlDecodeRemoteOk res with
  | Except.error err => Outcome.fatal err
  | Except.ok jobs => loop jobs.elems none

end RemoteOkFormatter

/-- The implementations of the `Formatter` interface. -/
inductive Formatter where
  | GitHub
  | StackOverflow
  | RemoteOk
deriving DecidableEq, Repr

/-- The method `Format` of a `Formatter`. -/
def Formatter.Format (env : Env) : Formatter → Bytes → Outcome (Slice (Option Job))
  | Formatter.GitHub => GitHubFormatter.Format env
  | Formatter.StackOverflow => StackOverflowFormatter.Format env
  | Formatter.RemoteOk => RemoteOkFormatter.Format env

/-- The `Source` struct. -/
structure Source where
  URL : String
  Formatter : Formatter
deriving DecidableEq, Repr

/-- The `sources` of `main`. -/
def sources : List Source :=
  [ { URL := "https://jobs.github.com/positions.json?&location=remote",
      Formatter := Formatter.GitHub },
    { URL := "https://stackoverflow.com/jobs/feed?r=true",
      Formatter := Formatter.StackOverflow },
    { URL := "https://remoteok.io/remote-jobs.rss",
      Formatter := Formatter.RemoteOk } ]

/-! ## writeJson -/

/-- JSON text of the elements of a `[]*Job`, separated by commas; a nil
pointer is `null`. -/
def encodeElems (env : Env) : List (Option Job) → Except String String
  | [] => Except.ok ""
  | j :: js =>
    match (match j with
      | none => Except.ok "null"
      | some job => env.marshalJob job), encodeElems env js with
    | Except.error e, _ => Except.error e
    | _, Except.error e => Except.error e
    | Except.ok s, Except.ok rest => Except.ok (if js.isEmpty then s else s ++ "," ++ rest)

/-- `json.Encoder.Encode(jobs)` for `jobs []*Job`: a nil slice is `null`, any
other slice an array; a newline ends the value. -/
def Encode (env : Env) (jobs : Slice (Option Job)) : Except String String :=
  match jobs with
  | none => Except.ok "null\n"
  | some l =>
    match encodeElems env l with
    | Except.error e => Except.error e
    | Except.ok s => Except.ok ("[" ++ s ++ "]\n")

/-- `writeJson(jobs)`: the content of `jobs.json` afterwards; `none` when the
file could not be created (the error is printed, and so is that of encoding to
the nil file). An encoding error is printed and leaves the created file empty. -/
def writeJson (env : Env) (jobs : Slice (Option Job)) : Option String :=
  if !env.createOk then none
  else
    match Encode env jobs with
    | Except.error _ => some ""
    | Except.ok s => some s

/-! ## main: one goroutine per source -/

/-- Where a goroutine of `main` stands. -/
inductive Goroutine where
  /-- Started; `fetch` and `Format` not yet done. -/
  | ready (s : Source)
  /-- `formatter.Format(bytes)` has returned `recs`. -/
  | formatted (recs : Slice (Option Job))
  /-- The goroutine has read `fileData` (`old`) for the `append`. -/
  | loaded (old : Slice (Option Job)) (recs : Slice (Option Job))
  /-- `fileData` assigned, `wg.Done()` called. -/
  | done
deriving DecidableEq, Repr

/-- State of the process while the goroutines run. -/
structure State where
  fileData : Slice (Option Job)
  tasks : List Goroutine
  /-- Set when `log.Fatal` or a panic has ended the process. -/
  ended : Option (Outcome Unit)
deriving DecidableEq, Repr

/-- State when every goroutine has been started. -/
def State.init (srcs : List Source) : State :=
  { fileData := none, tasks := srcs.map Goroutine.ready, ended := none }

/-- One step of goroutine `i`. The body of the goroutine takes three steps:
`fetch` and `Format` (the error of `fetch` is made into a value by
`fmt.Errorf` and dropped, so `Format` gets the bytes in every case); reading
`fileData`; assigning the appended slice to `fileData`. Nothing orders the
steps of different goroutines. -/
def step (env : Env) (i : Nat) (st : State) : State :=
  if st.ended.isSome then st
  else
    match st.tasks.get? i with
    | none => st
    | some (Goroutine.ready s) =>
      let (bytes, _) := fetch env s.URL
      match s.Formatter.Format env bytes with
      | Outcome.returned recs => { st with tasks := st.tasks.set i (Goroutine.formatted recs) }
      | Outcome.fatal e => { st with ended := some (Outcome.fatal e) }
      | Outcome.panicked m => { st with ended := some (Outcome.panicked m) }
    | some (Goroutine.formatted recs) =>
      { st with tasks := st.tasks.set i (Goroutine.loaded st.fileData recs) }
    | some (Goroutine.loaded old recs) =>
      { st with fileData := append old recs.elems, tasks := st.tasks.set i Goroutine.done }
    | some Goroutine.done => st

/-- Run the goroutines in the order the schedule gives. -/
def exec (env : Env) (schedule : List Nat) (st : State) : State :=
  schedule.foldl (fun s i => step env i s) st

/-- Has `wg.Wait()` returned: every goroutine is done and the process lives. -/
def State.joined (st : State) : Bool :=
  st.ended.isNone && st.tasks.all (fun t => t == Goroutine.done)

/-- The schedule that runs the goroutines of `n` sources one after the other. -/
def serial (n : Nat) : List Nat :=
  (List.range n).flatMap (fun i => [i, i, i])

/-- The fan-out of `main` for the sources `srcs` under a schedule: the value
of `fileData` after `wg.Wait()`, or how the process ended; `none` when the
schedule leaves a goroutine unfinished. -/
def run (env : Env) (srcs : List Source) (schedule : List Nat) :
    Option (Outcome (Slice (Option Job))) :=
  let st := exec env schedule (State.init srcs)
  match st.ended with
  | some (Outcome.fatal e) => some (Outcome.fatal e)
  | some (Outcome.panicked m) => some (Outcome.panicked m)
  | some (Outcome.returned _) => none
  | none => if st.joined then some (Outcome.returned st.fileData) else none

/-- `main` for the sources `srcs`: the content of `jobs.json` written after the
join, if the run gets there. -/
def mainWith (env : Env) (srcs : List Source) (schedule : List Nat) : Option (Option String) :=
  match run env srcs schedule with
  | some (Outcome.returned fileData) => some (writeJson env fileData)
  | _ => none

/-! ## Sample data

Payloads with the values `encoding/json` and `encoding/xml` decode them to,
and an environment built from them. They instantiate the theorems below; the
theorems themselves hold for every environment. -/

namespace Sample

/-- ASCII text as bytes. -/
def ascii (s : String) : Bytes := s.toList.map (fun c => c.toNat.toUInt8)

/-- A `Job` with the given `id` and `created_at`, every other field at its
zero value. -/
def jobOf (id date : String) : Job :=
  { ID := id, DateString := date, Date := time.Time.zero, Company := "", CompanyURL := "",
    Location := "", Position := "", Apply := "", Source := "", Description := "" }

/-- A JSON list of five jobs. -/
def githubFive : Bytes :=
  ascii "[\x7b\"id\":\"g1\"\x7d,\x7b\"id\":\"g2\"\x7d,\x7b\"id\":\"g3\"\x7d,\x7b\"id\":\"g4\"\x7d,\x7b\"id\":\"g5\"\x7d]"

/-- The jobs of `githubFive`. -/
def githubFiveJobs : List Job :=
  [jobOf "g1" "", jobOf "g2" "", jobOf "g3" "", jobOf "g4" "", jobOf "g5" ""]

/-- A JSON list whose second job has a date that is not in the layout and
carries a `created_datetime` and a `source` of its own. -/
def githubDated : Bytes :=
  ascii ("[\x7b\"id\":\"g1\",\"created_at\":\"Mon Jan 13 17:33:38 UTC 2020\"\x7d," ++
    "\x7b\"id\":\"g2\",\"created_at\":\"yesterday\"," ++
    "\"created_datetime\":\"2020-01-13T17:33:38Z\",\"source\":\"elsewhere\"\x7d," ++
    "\x7b\"id\":\"g3\",\"created_at\":\"Mon Jan  1 00:00:00 UTC 0001\"\x7d]")

/-- The first job of `githubDated`. -/
def g1 : Job := jobOf "g1" "Mon Jan 13 17:33:38 UTC 2020"

/-- The second job of `githubDated`. -/
def g2 : Job :=
  { jobOf "g2" "yesterday" with
    Date := ⟨63714533618, 0, time.Location.UTC⟩, Source := "elsewhere" }

/-- The third job of `githubDated`. -/
def g3 : Job := jobOf "g3" "Mon Jan  1 00:00:00 UTC 0001"

/-- The list `githubDated` without its second job. -/
def githubDatedRest : Bytes :=
  ascii ("[\x7b\"id\":\"g1\",\"created_at\":\"Mon Jan 13 17:33:38 UTC 2020\"\x7d," ++
    "\x7b\"id\":\"g3\",\"created_at\":\"Mon Jan  1 00:00:00 UTC 0001\"\x7d]")

/-- A JSON list whose only element is `null`. -/
def githubNull : Bytes := ascii "[null]"

/-- An RSS document of two items for `StackOverflowFormatter`. -/
def stackTwo : Bytes :=
  ascii ("<rss><channel>" ++
    "<item><guid>s1</guid><pubDate>Mon, 13 Jan 2020 17:33:38 Z</pubDate></item>" ++
    "<item><guid>s2</guid><pubDate>13/01/2020</pubDate></item>" ++
    "</channel></rss>")

/-- The first item of `stackTwo`. -/
def s1 : Job := jobOf "s1" "Mon, 13 Jan 2020 17:33:38 Z"

/-- The second item of `stackTwo`. -/
def s2 : Job := jobOf "s2" "13/01/2020"

/-- The document `stackTwo` without its second item. -/
def stackTwoRest : Bytes :=
  ascii ("<rss><channel>" ++
    "<item><guid>s1</guid><pubDate>Mon, 13 Jan 2020 17:33:38 Z</pubDate></item>" ++
    "</channel></rss>")

/-- An item with the given fields for `RemoteOkFormatter`. -/
def itemOf (guid date company description : String) : RemoteOkFormatter.job :=
  { ID := guid, DateString := date, Date := time.Time.zero, Position := "", Company := company,
    Source := "", Apply := "", Description := description }

/-- An RSS document of three items for `RemoteOkFormatter`. -/
def remoteThree : Bytes :=
  ascii ("<rss><channel>" ++
    "<item><guid> r1 </guid><pubDate>2020-01-13T09:33:38-08:00</pubDate>" ++
    "<company>  Acme Inc.  </company><description> We hire. </description></item>" ++
    "<item><guid>r2</guid><pubDate>soon</pubDate></item>" ++
    "<item><guid>r3</guid></item>" ++
    "</channel></rss>")

/-- The first item of `remoteThree`. -/
def r1 : RemoteOkFormatter.job :=
  itemOf " r1 " "2020-01-13T09:33:38-08:00" "  Acme Inc.  " " We hire. "

/-- The second item of `remoteThree`. -/
def r2 : RemoteOkFormatter.job := itemOf "r2" "soon" "" ""

/-- The third item of `remoteThree`. -/
def r3 : RemoteOkFormatter.job := itemOf "r3" "" "" ""

/-- The document `remoteThree` without its second item. -/
def remoteThreeRest : Bytes :=
  ascii ("<rss><channel>" ++
    "<item><guid> r1 </guid><pubDate>2020-01-13T09:33:38-08:00</pubDate>" ++
    "<company>  Acme Inc.  </company><description> We hire. </description></item>" ++
    "<item><guid>r3</guid></item>" ++
    "</channel></rss>")

/-- The response to a URL that is not one of the feeds. -/
def notFound : Response :=
  { StatusCode := 404, Status := "404 Not Found",
    Body := { chunks := [ascii "not found"], err := none } }

/-- The response of the GitHub feed: `githubFive` in two reads. -/
def githubResponse : Response :=
  { StatusCode := 200, Status := "200 OK",
    Body := { chunks := [githubFive.take 20, githubFive.drop 20], err := none } }

/-- A sample environment. The decoders give the sample payloads their values
and report the end of input (`EOF`) on the empty payload; any other payload is
outside the sample and is given an error. The GitHub feed answers 200 with
`githubFive` in two reads, the Stack Overflow feed cannot be reached, the
RemoteOK feed answers 200 with `remoteThree`, and any other URL answers 404.
The JSON text of a job is cut down to its id: no statement below reads it. -/
def env : Env :=
  { jsonDecode := fun res =>
      if res = [] then Except.error "EOF"
      else if res = githubFive then Except.ok (some (githubFiveJobs.map some))
      else if res = githubDated then Except.ok (some [some g1, some g2, some g3])
      else if res = githubDatedRest then Except.ok (some [some g1, some g3])
      else if res = githubNull then Except.ok (some [none])
      else Except.error "not a sample payload",
    xmlDecode := fun res =>
      if res = [] then Except.error "EOF"
      else if res = stackTwo then Except.ok (some [some s1, some s2])
      else if res = stackTwoRest then Except.ok (some [some s1])
      else Except.error "not a sample payload",
    xmlDecodeRemoteOk := fun res =>
      if res = [] then Except.error "EOF"
      else if res = remoteThree then Except.ok (some [some r1, some r2, some r3])
      else if res = remoteThreeRest then Except.ok (some [some r1, some r3])
      else Except.error "not a sample payload",
    httpGet := fun url =>
      if url = "https://jobs.github.com/positions.json?&location=remote" then
        Except.ok githubResponse
      else if url = "https://stackoverflow.com/jobs/feed?r=true" then
        Except.error "dial tcp: connection refused"
      else if url = "https://remoteok.io/remote-jobs.rss" then
        Except.ok { StatusCode := 200, Status := "200 OK",
                    Body := { chunks := [remoteThree], err := none } }
      else Except.ok notFound,
    createOk := true,
    marshalJob := fun j => Except.ok ("\x7b\"id\":\"" ++ j.ID ++ "\"\x7d") }

end Sample

/-! ## Specification-side notions -/

/-- The success statuses of HTTP: 200 to 299. -/
def isSuccessStatus (code : Int) : Bool := 200 ≤ code && code ≤ 299

/-- The error with which the envelope of `res` fails to decode for the
formatter, when it does. -/
def Formatter.decodeError (env : Env) : Formatter → Bytes → Option String
  | Formatter.GitHub, res =>
    match env.jsonDecode res with
    | Except.error e => some e
    | Except.ok _ => none
  | Formatter.StackOverflow, res =>
    match env.xmlDecode res with
    | Except.error e => some e
    | Except.ok _ => none
  | Formatter.RemoteOk, res =>
    match env.xmlDecodeRemoteOk res with
    | Except.error e => some e
    | Except.ok _ => none

/-- The slice with `a` put in at index `n`, the elements from `n` on moved up. -/
def Slice.insertAt {α : Type} (s : Slice α) (n : Nat) (a : α) : Slice α :=
  some (s.elems.take n ++ a :: s.elems.drop n)

/-- The string `t` is `s` with all leading and trailing white space removed:
`s` is `t` between two runs of white space, and `t` neither starts nor ends
with white space. -/
def IsTrimOf (t s : String) : Prop :=
  ∃ l r : List Char, s.toList = l ++ t.toList ++ r ∧
    (∀ c ∈ l, unicode.IsSpace c = true) ∧ (∀ c ∈ r, unicode.IsSpace c = true) ∧
    (∀ c, t.toList.head? = some c → unicode.IsSpace c = false) ∧
    (∀ c, t.toList.getLast? = some c → unicode.IsSpace c = false)

/-- The two feeds of `sources` that answer in the sample environment. -/
def Sample.pair : List Source :=
  [ { URL := "https://jobs.github.com/positions.json?&location=remote",
      Formatter := Formatter.GitHub },
    { URL := "https://remoteok.io/remote-jobs.rss",
      Formatter := Formatter.RemoteOk } ]

/-- A JSON list of one job whose date is not in the layout, followed by `null`. -/
def Sample.githubBadDateNull : Bytes :=
  Sample.ascii "[\x7b\"id\":\"g2\",\"created_at\":\"yesterday\"\x7d,null]"

/-- The list `githubBadDateNull` without its `null`. -/
def Sample.githubBadDate : Bytes :=
  Sample.ascii "[\x7b\"id\":\"g2\",\"created_at\":\"yesterday\"\x7d]"

/-- The sample environment with the values of `githubBadDateNull` (the job and
a nil pointer) and of `githubBadDate` (the job) added to its JSON decoder. -/
def Sample.envNull : Env :=
  { Sample.env with
    jsonDecode := fun res =>
      if res = Sample.githubBadDateNull then
        Except.ok (some [some (Sample.jobOf "g2" "yesterday"), none])
      else if res = Sample.githubBadDate then
        Except.ok (some [some (Sample.jobOf "g2" "yesterday")])
      else Sample.env.jsonDecode res }

/-- The function `main` of the program: the fan-out over `sources`, then `writeJson`. -/
def Program.main (env : Env) (schedule : List Nat) : Option (Option String) :=
  mainWith env sources schedule

/-! ### Dates as the layouts write them -/

/-- The decimal digit of `n` for `n < 10`. -/
def digitChar (n : Nat) : Char := Char.ofNat (48 + n)

/-- Two digits, zero padded. -/
def pad2 (n : Nat) : List Char := [digitChar (n / 10), digitChar (n % 10)]

/-- Four digits, zero padded. -/
def pad4 (n : Nat) : List Char :=
  [digitChar (n / 1000), digitChar (n / 100 % 10), digitChar (n / 10 % 10), digitChar (n % 10)]

/-- Two characters, space padded (the layout element `_2`). -/
def underPad2 (n : Nat) : List Char := if n < 10 then [' ', digitChar n] else pad2 n

/-- The short name of weekday `wd` (0 is Sunday). -/
def dayName (wd : Nat) : List Char := time.shortDayNames.getD wd []

/-- The short name of month `m` (1 is January). -/
def monthName (m : Nat) : List Char := time.shortMonthNames.getD (m - 1) []

/-- A civil date and time of day. -/
structure Civil where
  year : Nat
  month : Nat
  day : Nat
  hour : Nat
  minute : Nat
  second : Nat

/-- Leap years of the Gregorian calendar. -/
def leapYear (y : Nat) : Bool := (y % 4 == 0 && y % 100 != 0) || y % 400 == 0

/-- Days of month `m` in year `y`. -/
def monthLength (y m : Nat) : Nat :=
  if m == 2 then (if leapYear y then 29 else 28)
  else if m == 4 || m == 6 || m == 9 || m == 11 then 30
  else 31

/-- A date of the calendar and a time of the day, in the years 0 to 9999. -/
def Civil.valid (c : Civil) : Prop :=
  c.year ≤ 9999 ∧ 1 ≤ c.month ∧ c.month ≤ 12 ∧ 1 ≤ c.day ∧ c.day ≤ monthLength c.year c.month ∧
    c.hour < 24 ∧ c.minute < 60 ∧ c.second < 60

instance (c : Civil) : Decidable c.valid := by
  unfold Civil.valid
  infer_instance

/-- Days from January 1 of year 1 to January 1 of year `y` in the proleptic
Gregorian calendar (negative for year 0). -/
def daysBeforeYear (y : Nat) : Int :=
  365 * ((y : Int) - 1) + ((y : Int) - 1) / 4 - ((y : Int) - 1) / 100 + ((y : Int) - 1) / 400

/-- Days of year `y` before its month `m`. -/
def daysBeforeMonth (y m : Nat) : Nat :=
  ((List.range (m - 1)).map (fun k => monthLength y (k + 1))).sum

/-- The instant a civil time at `offset` seconds east of UTC denotes, in
seconds since January 1, year 1, 00:00:00 UTC. -/
def Civil.instant (c : Civil) (offset : Int) : Int :=
  (daysBeforeYear c.year + daysBeforeMonth c.year c.month + ((c.day : Int) - 1)) * 86400 +
    ((c.hour : Int) * 3600 + (c.minute : Int) * 60 + (c.second : Int)) - offset

/-- The civil time in the layout `Mon Jan _2 15:04:05 UTC 2006`, with the name
of weekday `wd`. -/
def formatGitHub (wd : Nat) (c : Civil) : List Char :=
  dayName wd ++ ' ' :: (monthName c.month ++ ' ' :: (underPad2 c.day ++ ' ' :: (pad2 c.hour ++
    ':' :: (pad2 c.minute ++ ':' :: (pad2 c.second ++
      ' ' :: 'U' :: 'T' :: 'C' :: ' ' :: (pad4 c.year ++ []))))))

/-- The civil time in the layout `Mon, _2 Jan 2006 15:04:05 Z`. -/
def formatStackOverflow (wd : Nat) (c : Civil) : List Char :=
  dayName wd ++ ',' :: ' ' :: (underPad2 c.day ++ ' ' :: (monthName c.month ++ ' ' ::
    (pad4 c.year ++ ' ' :: (pad2 c.hour ++ ':' :: (pad2 c.minute ++ ':' :: (pad2 c.second ++
      [' ', 'Z']))))))

/-- The civil time in the layout `2006-01-02T15:04:05-07:00`, at the offset of
`oh` hours and `om` minutes, west of UTC when `west`. -/
def formatRemoteOk (c : Civil) (west : Bool) (oh om : Nat) : List Char :=
  pad4 c.year ++ '-' :: (pad2 c.month ++ '-' :: (pad2 c.day ++ 'T' :: (pad2 c.hour ++
    ':' :: (pad2 c.minute ++ ':' :: (pad2 c.second ++
      (if west then '-' else '+') :: (pad2 oh ++ ':' :: (pad2 om ++ [])))))))

/-- Seconds east of UTC of the offset written `±oh:om`. -/
def offsetSeconds (west : Bool) (oh om : Nat) : Int :=
  if west then -(((oh : Int) * 60 + om) * 60) else ((oh : Int) * 60 + om) * 60

/-! ## fetch -/

theorem copyChunks_eq (cs : List Bytes) (data : Bytes) :
    copyChunks cs data = data ++ cs.flatten := by
  induction cs generalizing data with
  | nil => simp [copyChunks]
  | cons c cs ih => simp [copyChunks, ih]

/-- C9: when the status of the response is not a success status, `fetch`
returns the status as an error and no bytes; and when `fetch` returns no
error, the response was read to its end and the bytes returned are all the
chunks of the body in order. -/
theorem fetch_error_or_whole_body (env : Env) (url : String) (resp : Response)
    (h : env.httpGet url = Except.ok resp) :
    (isSuccessStatus resp.StatusCode = false → fetch env url = ([], some resp.Status)) ∧
    ((fetch env url).2 = none →
      resp.StatusCode = StatusOK ∧ resp.Body.err = none ∧
        (fetch env url).1 = resp.Body.chunks.flatten) := by
  unfold fetch
  rw [h]
  constructor
  · intro hs
    have hne : resp.StatusCode ≠ StatusOK := by
      intro h200
      rw [h200] at hs
      simp [isSuccessStatus, StatusOK] at hs
    simp [hne]
  · intro hnone
    by_cases h200 : resp.StatusCode = StatusOK
    · cases hb : resp.Body.err with
      | none =>
        simp [h200, ioCopy, hb, copyChunks_eq]
      | some e =>
        simp [h200, ioCopy, hb] at hnone
    · simp [h200] at hnone

theorem fetch_error_or_whole_body_witness :
    (Sample.env.httpGet "https://example.org/jobs" = Except.ok Sample.notFound ∧
      fetch Sample.env "https://example.org/jobs" = ([], some "404 Not Found")) ∧
    (Sample.env.httpGet "https://jobs.github.com/positions.json?&location=remote" =
        Except.ok Sample.githubResponse ∧
      (fetch Sample.env "https://jobs.github.com/positions.json?&location=remote").1 =
        Sample.githubFive) :=
  ⟨⟨rfl, (fetch_error_or_whole_body Sample.env "https://example.org/jobs" Sample.notFound
      rfl).1 (by decide)⟩,
   ⟨rfl, by
      have h := (fetch_error_or_whole_body Sample.env
        "https://jobs.github.com/positions.json?&location=remote" Sample.githubResponse
        rfl).2 (by decide)
      rw [h.2.2]
      decide⟩⟩

/-! ## Envelope errors -/

theorem Format_decode_error (env : Env) (f : Formatter) (res : Bytes) (err : String)
    (h : f.decodeError env res = some err) : f.Format env res = Outcome.fatal err := by
  cases f
  · simp only [Formatter.decodeError] at h
    simp only [Formatter.Format, GitHubFormatter.Format]
    split at h <;> simp_all
  · simp only [Formatter.decodeError] at h
    simp only [Formatter.Format, StackOverflowFormatter.Format]
    split at h <;> simp_all
  · simp only [Formatter.decodeError] at h
    simp only [Formatter.Format, RemoteOkFormatter.Format]
    split at h <;> simp_all

/-- C2 (as amended): for each of the three formatters and every payload whose
envelope fails to decode, `Format` does not return any slice of records: the
decode error goes to `log.Fatal`, and the goroutine step that calls `Format`
ends the whole process. -/
theorem Format_fatal_of_decode_error (env : Env) (f : Formatter) (res : Bytes) (err : String)
    (h : f.decodeError env res = some err) :
    f.Format env res = Outcome.fatal err ∧
    (∀ recs, f.Format env res ≠ Outcome.returned recs) ∧
    (∀ (st : State) (i : Nat) (url : String), st.ended = none →
      st.tasks.get? i = some (Goroutine.ready { URL := url, Formatter := f }) →
      (fetch env url).1 = res →
      (step env i st).ended = some (Outcome.fatal err)) := by
  have hF : f.Format env res = Outcome.fatal err := Format_decode_error env f res err h
  refine ⟨hF, ?_, ?_⟩
  · intro recs hrec
    rw [hF] at hrec
    cases hrec
  · intro st i url hend htask hbytes
    unfold step
    simp only [hend, htask, Option.isSome_none, Bool.false_eq_true, if_false]
    subst hbytes
    simp only [hF]

theorem Format_fatal_of_decode_error_witness :
    Formatter.decodeError Sample.env Formatter.StackOverflow [] = some "EOF" ∧
    Formatter.Format Sample.env Formatter.StackOverflow [] = Outcome.fatal "EOF" :=
  ⟨rfl, (Format_fatal_of_decode_error Sample.env Formatter.StackOverflow [] "EOF" rfl).1⟩

/-- C2 (as stated, refuted): on the empty payload each decoder reports `EOF`,
and none of the three `Format` methods returns zero records: each ends the
process with the error. -/
theorem Format_empty_payload_is_fatal :
    (GitHubFormatter.Format Sample.env [] = Outcome.fatal "EOF" ∧
      StackOverflowFormatter.Format Sample.env [] = Outcome.fatal "EOF" ∧
      RemoteOkFormatter.Format Sample.env [] = Outcome.fatal "EOF") ∧
    ¬ (∃ recs, GitHubFormatter.Format Sample.env [] = Outcome.returned recs ∧ recs.len = 0) := by
  refine ⟨⟨rfl, rfl, rfl⟩, ?_⟩
  rintro ⟨recs, h, _⟩
  have h2 : GitHubFormatter.Format Sample.env [] = Outcome.fatal "EOF" := rfl
  rw [h2] at h
  cases h

/-! ## Nil records -/

theorem GitHub_loop_panics (pre : List Job) (post : List (Option Job)) :
    GitHubFormatter.loop (pre.map some ++ none :: post) = Outcome.panicked nilDeref := by
  induction pre with
  | nil => simp [GitHubFormatter.loop]
  | cons j js ih =>
    rw [List.map_cons, List.cons_append, GitHubFormatter.loop, ih]
    rfl

/-- C10 (the code at the failing input): when the payload decodes to a list
with a nil element (a JSON `null`), as `[null]` does, the loop of
`GitHubFormatter.Format` reads `j.DateString` through the nil pointer and the
call ends in a panic. -/
theorem GitHub_Format_panics_on_null (env : Env) (res : Bytes) (pre : List Job)
    (post : List (Option Job))
    (h : env.jsonDecode res = Except.ok (some (pre.map some ++ none :: post))) :
    GitHubFormatter.Format env res = Outcome.panicked nilDeref := by
  simp only [GitHubFormatter.Format, h, GitHub_loop_panics, Outcome.map]

theorem GitHub_Format_panics_on_null_witness :
    Sample.env.jsonDecode Sample.githubNull = Except.ok (some [none]) ∧
    GitHubFormatter.Format Sample.env Sample.githubNull = Outcome.panicked nilDeref :=
  ⟨rfl, GitHub_Format_panics_on_null Sample.env Sample.githubNull [] [] rfl⟩

/-! ## No sources -/

theorem exec_no_tasks (env : Env) (schedule : List Nat) (st : State) (h : st.tasks = []) :
    exec env schedule st = st := by
  induction schedule generalizing st with
  | nil => rfl
  | cons i is ih =>
    have hs : step env i st = st := by
      unfold step
      split
      · rfl
      · simp [h]
    simp only [exec, List.foldl_cons, hs]
    exact ih st h

/-- C8 (as amended): with no sources, whatever the schedule, `fileData` is
the nil slice after the join, and `writeJson` writes `null` and a newline to
`jobs.json` when the file can be created (nothing when it cannot). -/
theorem no_sources_writes_null (env : Env) (schedule : List Nat) :
    run env [] schedule = some (Outcome.returned none) ∧
    mainWith env [] schedule = some (if env.createOk then some "null\n" else none) := by
  have hr : run env [] schedule = some (Outcome.returned none) := by
    have he : exec env schedule (State.init []) = State.init [] :=
      exec_no_tasks env schedule (State.init []) rfl
    simp only [run, he]
    rfl
  refine ⟨hr, ?_⟩
  simp only [mainWith, hr, writeJson, Encode]
  cases env.createOk <;> simp

theorem no_sources_writes_null_witness :
    mainWith Sample.env [] [] = some (some "null\n") :=
  (no_sources_writes_null Sample.env []).2

/-- C8 (as stated, refuted): with no sources the artifact written is the text
`null`, not the empty array `[]`. -/
theorem no_sources_not_empty_array :
    run Sample.env [] [] = some (Outcome.returned none) ∧
    mainWith Sample.env [] [] = some (some "null\n") ∧
    mainWith Sample.env [] [] ≠ some (some "[]\n") := by
  refine ⟨rfl, rfl, ?_⟩
  decide

/-! ## A source that cannot be fetched -/

theorem fetch_error_no_bytes (env : Env) (url : String) (h : (fetch env url).2 ≠ none) :
    (fetch env url).1 = [] := by
  unfold fetch at h ⊢
  cases hg : env.httpGet url with
  | error err => rfl
  | ok resp =>
    rw [hg] at h
    simp only at h ⊢
    by_cases h200 : resp.StatusCode = StatusOK
    · simp only [h200, bne_self_eq_false, Bool.false_eq_true, if_false] at h ⊢
      cases hc : ioCopy resp.Body with
      | mk data err =>
        cases err with
        | none => simp [hc] at h
        | some e => rfl
    · simp [h200]

theorem get?_set_other {α : Type} (l : List α) (i k : Nat) (a : α) (h : i ≠ k) :
    (l.set i a).get? k = l.get? k := by
  simp [List.get?_eq_getElem?, List.getElem?_set_ne h]

theorem step_keeps_failed (env : Env) (k : Nat) (s : Source) (e : String)
    (hfetch : (fetch env s.URL).1 = [])
    (hdec : s.Formatter.decodeError env [] = some e) (i : Nat) (st : State)
    (hinv : st.ended.isSome = true ∨ st.tasks.get? k = some (Goroutine.ready s)) :
    (step env i st).ended.isSome = true ∨
      (step env i st).tasks.get? k = some (Goroutine.ready s) := by
  by_cases hend : st.ended.isSome = true
  · left
    simp [step, hend]
  · have hk : st.tasks.get? k = some (Goroutine.ready s) := by
      cases hinv with
      | inl h => exact absurd h hend
      | inr h => exact h
    unfold step
    simp only [hend, Bool.false_eq_true, if_false]
    cases hi : st.tasks.get? i with
    | none => exact Or.inr hk
    | some t =>
      by_cases hik : i = k
      · subst hik
        rw [hk] at hi
        injection hi with hi
        subst hi
        left
        have hF := Format_decode_error env s.Formatter [] e hdec
        simp only [hfetch, hF]
        rfl
      · cases t with
        | ready s2 =>
          simp only
          cases hF : s2.Formatter.Format env (fetch env s2.URL).1 with
          | returned recs =>
            right
            simp only
            rw [get?_set_other _ _ _ _ hik]
            exact hk
          | fatal e2 => left; rfl
          | panicked m => left; rfl
        | formatted recs =>
          right
          simp only
          rw [get?_set_other _ _ _ _ hik]
          exact hk
        | loaded old recs =>
          right
          simp only
          rw [get?_set_other _ _ _ _ hik]
          exact hk
        | done => exact Or.inr hk

theorem exec_keeps_failed (env : Env) (k : Nat) (s : Source) (e : String)
    (hfetch : (fetch env s.URL).1 = [])
    (hdec : s.Formatter.decodeError env [] = some e) (schedule : List Nat) (st : State)
    (hinv : st.ended.isSome = true ∨ st.tasks.get? k = some (Goroutine.ready s)) :
    (exec env schedule st).ended.isSome = true ∨
      (exec env schedule st).tasks.get? k = some (Goroutine.ready s) := by
  induction schedule generalizing st with
  | nil => exact hinv
  | cons i is ih =>
    simp only [exec, List.foldl_cons]
    exact ih (step env i st) (step_keeps_failed env k s e hfetch hdec i st hinv)

/-- The run of `main` never gets past the join with a result when one source
cannot be fetched and the decoder of its formatter rejects the empty payload:
its goroutine passes the nil bytes to `Format`, which ends the process. -/
theorem run_never_returns_of_failed_fetch (env : Env) (srcs : List Source) (k : Nat)
    (s : Source) (e : String) (hs : srcs.get? k = some s)
    (hfetch : (fetch env s.URL).2 ≠ none)
    (hdec : s.Formatter.decodeError env [] = some e) (schedule : List Nat)
    (recs : Slice (Option Job)) :
    run env srcs schedule ≠ some (Outcome.returned recs) := by
  have h0 : (State.init srcs).ended.isSome = true ∨
      (State.init srcs).tasks.get? k = some (Goroutine.ready s) := by
    right
    simp only [State.init, List.get?_eq_getElem?, List.getElem?_map] at hs ⊢
    rw [hs]
    rfl
  have hinv := exec_keeps_failed env k s e (fetch_error_no_bytes env s.URL hfetch) hdec
    schedule (State.init srcs) h0
  intro hrun
  unfold run at hrun
  simp only at hrun
  cases hst : (exec env schedule (State.init srcs)).ended with
  | some o =>
    rw [hst] at hrun
    cases o <;> simp at hrun
  | none =>
    rw [hst] at hrun hinv
    simp only [Option.isSome_none, Bool.false_eq_true, false_or] at hinv
    simp only at hrun
    split at hrun
    · rename_i hj
      simp only [State.joined, Bool.and_eq_true, List.all_eq_true] at hj
      have hmem : Goroutine.ready s ∈ (exec env schedule (State.init srcs)).tasks :=
        List.get?_mem hinv
      have := hj.2 _ hmem
      simp at this
    · cases hrun

/-- C1 (the code at the failing input): in the sample environment the GitHub
feed yields five records and the RemoteOK feed three, and the Stack Overflow
feed cannot be fetched. `fetch` returns the error and no bytes, the goroutine
drops the error and passes the nil bytes to `Format`, the decoder reports
`EOF`, and `log.Fatal` ends the process: run one after the other the
goroutines end in that fatal error, and under no schedule does the run get
past the join with a result, of eight records or any other. -/
theorem run_aborts_when_one_fetch_fails :
    fetch Sample.env "https://stackoverflow.com/jobs/feed?r=true" =
      ([], some "dial tcp: connection refused") ∧
    (∃ a, GitHubFormatter.Format Sample.env
        (fetch Sample.env "https://jobs.github.com/positions.json?&location=remote").1 =
          Outcome.returned a ∧ a.len = 5) ∧
    (∃ b, RemoteOkFormatter.Format Sample.env
        (fetch Sample.env "https://remoteok.io/remote-jobs.rss").1 =
          Outcome.returned b ∧ b.len = 3) ∧
    run Sample.env sources (serial 3) = some (Outcome.fatal "EOF") ∧
    ∀ schedule recs, run Sample.env sources schedule ≠ some (Outcome.returned recs) := by
  refine ⟨rfl, ⟨_, rfl, rfl⟩, ⟨_, rfl, rfl⟩, rfl, ?_⟩
  intro schedule recs
  exact run_never_returns_of_failed_fetch Sample.env sources 1
    { URL := "https://stackoverflow.com/jobs/feed?r=true", Formatter := Formatter.StackOverflow }
    "EOF" rfl (by decide) rfl schedule recs

/-! ## Unordered appends -/

/-- C3 (the code at the failing input): the GitHub feed yields five records
and the RemoteOK feed three. When the two goroutines run one after the other
`fileData` ends with eight records; when both read `fileData` before either
assigns it, the second assignment overwrites the first and `fileData` ends
with three records: five are lost. -/
theorem interleaved_appends_lose_records :
    (∃ a, GitHubFormatter.Format Sample.env
        (fetch Sample.env "https://jobs.github.com/positions.json?&location=remote").1 =
          Outcome.returned a ∧ a.len = 5) ∧
    (∃ b, RemoteOkFormatter.Format Sample.env
        (fetch Sample.env "https://remoteok.io/remote-jobs.rss").1 =
          Outcome.returned b ∧ b.len = 3) ∧
    (∃ whole, run Sample.env Sample.pair [0, 0, 0, 1, 1, 1] = some (Outcome.returned whole) ∧
      whole.len = 8) ∧
    (∃ kept, run Sample.env Sample.pair [0, 1, 0, 1, 0, 1] = some (Outcome.returned kept) ∧
      kept.len = 3) := by
  refine ⟨⟨_, rfl, rfl⟩, ⟨_, rfl, rfl⟩, ⟨_, rfl, rfl⟩, ⟨_, rfl, rfl⟩⟩

/-! ## The loops of the formatters -/

theorem Outcome.map_map {α β γ : Type} (f : α → β) (g : β → γ) (o : Outcome α) :
    (o.map f).map g = o.map (fun a => g (f a)) := by
  cases o <;> rfl

theorem GitHub_loop_items (items : List Job) :
    GitHubFormatter.loop (items.map some) =
      Outcome.returned (items.map (fun j => some (GitHubFormatter.stamp j))) := by
  induction items with
  | nil => rfl
  | cons j js ih =>
    rw [List.map_cons, GitHubFormatter.loop, ih]
    rfl

theorem GitHub_loop_insert (pre post : List (Option Job)) (j : Job) :
    GitHubFormatter.loop (pre ++ some j :: post) =
      (GitHubFormatter.loop (pre ++ post)).map
        (fun rs => rs.take pre.length ++ some (GitHubFormatter.stamp j) :: rs.drop pre.length) := by
  induction pre with
  | nil =>
    simp only [List.nil_append, GitHubFormatter.loop, List.length_nil, List.take_zero,
      List.drop_zero]
  | cons a pre ih =>
    cases a with
    | none => rfl
    | some x =>
      have e1 : (some x :: pre) ++ some j :: post = some x :: (pre ++ some j :: post) := rfl
      have e2 : (some x :: pre) ++ post = some x :: (pre ++ post) := rfl
      rw [e1, e2, GitHubFormatter.loop, GitHubFormatter.loop, ih, Outcome.map_map, Outcome.map_map]
      rfl

theorem StackOverflow_loop_items (items : List Job) :
    StackOverflowFormatter.loop (items.map some) =
      Outcome.returned (items.map (fun j => some (StackOverflowFormatter.stamp j))) := by
  induction items with
  | nil => rfl
  | cons j js ih =>
    rw [List.map_cons, StackOverflowFormatter.loop, ih]
    rfl

theorem StackOverflow_loop_insert (pre post : List (Option Job)) (j : Job) :
    StackOverflowFormatter.loop (pre ++ some j :: post) =
      (StackOverflowFormatter.loop (pre ++ post)).map
        (fun rs =>
          rs.take pre.length ++ some (StackOverflowFormatter.stamp j) :: rs.drop pre.length) := by
  induction pre with
  | nil =>
    simp only [List.nil_append, StackOverflowFormatter.loop, List.length_nil, List.take_zero,
      List.drop_zero]
  | cons a pre ih =>
    cases a with
    | none => rfl
    | some x =>
      have e1 : (some x :: pre) ++ some j :: post = some x :: (pre ++ some j :: post) := rfl
      have e2 : (some x :: pre) ++ post = some x :: (pre ++ post) := rfl
      rw [e1, e2, StackOverflowFormatter.loop, StackOverflowFormatter.loop, ih, Outcome.map_map, Outcome.map_map]
      rfl

theorem append_elems {α : Type} (s : Slice α) (xs : List α) :
    (append s xs).elems = s.elems ++ xs := by
  cases xs with
  | nil => simp [append]
  | cons x xs => simp [append, Slice.elems]

theorem append_append {α : Type} (s : Slice α) (a : α) (xs : List α) :
    append (append s [a]) xs = append s (a :: xs) := by
  cases xs with
  | nil => rfl
  | cons x xs => simp [append, Slice.elems]

theorem RemoteOk_loop_items (items : List RemoteOkFormatter.job) (data : Slice (Option Job)) :
    RemoteOkFormatter.loop (items.map some) data =
      Outcome.returned (append data (items.map (fun j => some (RemoteOkFormatter.build j)))) := by
  induction items generalizing data with
  | nil => rfl
  | cons j js ih =>
    rw [List.map_cons, RemoteOkFormatter.loop, ih, append_append]
    rfl

theorem insertAt_append {α : Type} (d : Slice α) (n : Nat) (x b : α) (hn : n ≤ d.len) :
    append (d.insertAt n x) [b] = (append d [b]).insertAt n x := by
  simp only [Slice.len, Slice.elems] at hn
  simp only [append, Slice.insertAt, Slice.elems, Option.getD_some, List.append_assoc,
    List.cons_append, List.take_append_of_le_length hn, List.drop_append_of_le_length hn]

theorem RemoteOk_loop_insertAt (post : List (Option RemoteOkFormatter.job))
    (d : Slice (Option Job)) (n : Nat) (x : Option Job) (hn : n ≤ d.len) :
    RemoteOkFormatter.loop post (d.insertAt n x) =
      (RemoteOkFormatter.loop post d).map (fun s => s.insertAt n x) := by
  induction post generalizing d with
  | nil => rfl
  | cons a post ih =>
    cases a with
    | none => rfl
    | some y =>
      simp only [RemoteOkFormatter.loop]
      rw [insertAt_append d n x _ hn]
      apply ih
      simp only [Slice.len, append_elems, List.length_append] at hn ⊢
      omega

theorem RemoteOk_loop_insert (pre post : List (Option RemoteOkFormatter.job))
    (j : RemoteOkFormatter.job) (data : Slice (Option Job)) :
    RemoteOkFormatter.loop (pre ++ some j :: post) data =
      (RemoteOkFormatter.loop (pre ++ post) data).map
        (fun s => s.insertAt (data.len + pre.length) (some (RemoteOkFormatter.build j))) := by
  induction pre generalizing data with
  | nil =>
    have h : append data [some (RemoteOkFormatter.build j)] =
        data.insertAt data.len (some (RemoteOkFormatter.build j)) := by
      simp [append, Slice.insertAt, Slice.len]
    simp only [List.nil_append, RemoteOkFormatter.loop, h, List.length_nil, Nat.add_zero]
    exact RemoteOk_loop_insertAt post data data.len _ (Nat.le_refl _)
  | cons a pre ih =>
    cases a with
    | none => rfl
    | some y =>
      have e1 : (some y :: pre) ++ some j :: post = some y :: (pre ++ some j :: post) := rfl
      have e2 : (some y :: pre) ++ post = some y :: (pre ++ post) := rfl
      rw [e1, e2, RemoteOkFormatter.loop, RemoteOkFormatter.loop, ih, List.length_cons]
      have hl : (append data [some (RemoteOkFormatter.build y)]).len + pre.length =
          data.len + (pre.length + 1) := by
        simp only [Slice.len, append_elems, List.length_append, List.length_singleton]
        omega
      rw [hl]

theorem GitHub_Format_items (env : Env) (res : Bytes) (d : Slice (Option Job))
    (items : List Job) (hd : env.jsonDecode res = Except.ok d)
    (he : d.elems = items.map some) :
    ∃ recs, GitHubFormatter.Format env res = Outcome.returned recs ∧
      recs.elems = items.map (fun j => some (GitHubFormatter.stamp j)) := by
  cases d with
  | none =>
    refine ⟨none, by simp only [GitHubFormatter.Format, hd], ?_⟩
    have hn : items = [] := by simpa [Slice.elems] using he.symm
    simp [hn, Slice.elems]
  | some l =>
    have hl : l = items.map some := he
    refine ⟨some (items.map (fun j => some (GitHubFormatter.stamp j))), ?_, rfl⟩
    simp only [GitHubFormatter.Format, hd, hl, GitHub_loop_items, Outcome.map]

theorem StackOverflow_Format_items (env : Env) (res : Bytes) (d : Slice (Option Job))
    (items : List Job) (hd : env.xmlDecode res = Except.ok d)
    (he : d.elems = items.map some) :
    ∃ recs, StackOverflowFormatter.Format env res = Outcome.returned recs ∧
      recs.elems = items.map (fun j => some (StackOverflowFormatter.stamp j)) := by
  cases d with
  | none =>
    refine ⟨none, by simp only [StackOverflowFormatter.Format, hd], ?_⟩
    have hn : items = [] := by simpa [Slice.elems] using he.symm
    simp [hn, Slice.elems]
  | some l =>
    have hl : l = items.map some := he
    refine ⟨some (items.map (fun j => some (StackOverflowFormatter.stamp j))), ?_, rfl⟩
    simp only [StackOverflowFormatter.Format, hd, hl, StackOverflow_loop_items, Outcome.map]

theorem RemoteOk_Format_items (env : Env) (res : Bytes)
    (d : Slice (Option RemoteOkFormatter.job)) (items : List RemoteOkFormatter.job)
    (hd : env.xmlDecodeRemoteOk res = Except.ok d) (he : d.elems = items.map some) :
    ∃ recs, RemoteOkFormatter.Format env res = Outcome.returned recs ∧
      recs.elems = items.map (fun j => some (RemoteOkFormatter.build j)) := by
  refine ⟨append none (items.map (fun j => some (RemoteOkFormatter.build j))), ?_, ?_⟩
  · simp only [RemoteOkFormatter.Format, hd, he, RemoteOk_loop_items]
  · rw [append_elems]
    rfl

theorem RemoteOk_label_trimmed :
    strings.TrimSpace RemoteOkFormatter.label = "RemoteOK Jobs" := by decide

theorem RemoteOk_build_eq (j : RemoteOkFormatter.job) :
    RemoteOkFormatter.build j =
      { ID := strings.TrimSpace j.ID,
        DateString := j.DateString,
        Date := (time.Parse time.layoutRemoteOk j.DateString).getD time.Time.zero,
        Company := strings.TrimSpace j.Company,
        CompanyURL := "",
        Location := "",
        Position := strings.TrimSpace j.Position,
        Apply := strings.TrimSpace j.Apply,
        Source := "RemoteOK Jobs",
        Description := j.Description } := by
  simp only [RemoteOkFormatter.build, RemoteOk_label_trimmed]

/-! ## One record per item -/

/-- C6: for each of the three formatters, when the payload decodes to the
items `items` (n of them), `Format` returns n records, the i-th being the i-th
item with `Date` set from its date string and `Source` set to the label of the
formatter (`Github Jobs`, `Stack Overflow`, `RemoteOK Jobs`), whatever source
the payload gave; for `RemoteOkFormatter` the record is built from the item
with the trimmed fields. -/
theorem Format_one_record_per_item (env : Env) (res : Bytes) :
    (∀ (d : Slice (Option Job)) (items : List Job),
      env.jsonDecode res = Except.ok d → d.elems = items.map some →
      ∃ recs, GitHubFormatter.Format env res = Outcome.returned recs ∧
        recs.len = items.length ∧
        ∀ i j, items.get? i = some j →
          recs.elems.get? i = some (some { j with
            Date := (time.Parse time.layoutGitHub j.DateString).getD time.Time.zero,
            Source := "Github Jobs" })) ∧
    (∀ (d : Slice (Option Job)) (items : List Job),
      env.xmlDecode res = Except.ok d → d.elems = items.map some →
      ∃ recs, StackOverflowFormatter.Format env res = Outcome.returned recs ∧
        recs.len = items.length ∧
        ∀ i j, items.get? i = some j →
          recs.elems.get? i = some (some { j with
            Date := (time.Parse time.layoutStackOverflow j.DateString).getD time.Time.zero,
            Source := "Stack Overflow" })) ∧
    (∀ (d : Slice (Option RemoteOkFormatter.job)) (items : List RemoteOkFormatter.job),
      env.xmlDecodeRemoteOk res = Except.ok d → d.elems = items.map some →
      ∃ recs, RemoteOkFormatter.Format env res = Outcome.returned recs ∧
        recs.len = items.length ∧
        ∀ i j, items.get? i = some j →
          recs.elems.get? i = some (some
            { ID := strings.TrimSpace j.ID,
              DateString := j.DateString,
              Date := (time.Parse time.layoutRemoteOk j.DateString).getD time.Time.zero,
              Company := strings.TrimSpace j.Company,
              CompanyURL := "",
              Location := "",
              Position := strings.TrimSpace j.Position,
              Apply := strings.TrimSpace j.Apply,
              Source := "RemoteOK Jobs",
              Description := j.Description })) := by
  refine ⟨?_, ?_, ?_⟩
  · intro d items hd he
    obtain ⟨recs, hF, hr⟩ := GitHub_Format_items env res d items hd he
    refine ⟨recs, hF, by simp [Slice.len, hr], ?_⟩
    intro i j hj
    rw [hr, List.get?_eq_getElem?, List.getElem?_map, ← List.get?_eq_getElem?, hj]
    rfl
  · intro d items hd he
    obtain ⟨recs, hF, hr⟩ := StackOverflow_Format_items env res d items hd he
    refine ⟨recs, hF, by simp [Slice.len, hr], ?_⟩
    intro i j hj
    rw [hr, List.get?_eq_getElem?, List.getElem?_map, ← List.get?_eq_getElem?, hj]
    rfl
  · intro d items hd he
    obtain ⟨recs, hF, hr⟩ := RemoteOk_Format_items env res d items hd he
    refine ⟨recs, hF, by simp [Slice.len, hr], ?_⟩
    intro i j hj
    rw [hr, List.get?_eq_getElem?, List.getElem?_map, ← List.get?_eq_getElem?, hj,
      ← RemoteOk_build_eq]
    rfl

theorem Format_one_record_per_item_witness :
    (∃ recs, GitHubFormatter.Format Sample.env Sample.githubDated = Outcome.returned recs ∧
      recs.len = 3 ∧
      recs.elems.get? 1 = some (some { Sample.g2 with
        Date := time.Time.zero, Source := "Github Jobs" })) ∧
    (∃ recs, RemoteOkFormatter.Format Sample.env Sample.remoteThree = Outcome.returned recs ∧
      recs.len = 3) := by
  constructor
  · obtain ⟨recs, hF, hl, hi⟩ := (Format_one_record_per_item Sample.env Sample.githubDated).1
      (some [some Sample.g1, some Sample.g2, some Sample.g3])
      [Sample.g1, Sample.g2, Sample.g3] rfl rfl
    exact ⟨recs, hF, hl, hi 1 Sample.g2 rfl⟩
  · obtain ⟨recs, hF, hl, _⟩ := (Format_one_record_per_item Sample.env Sample.remoteThree).2.2
      (some [some Sample.r1, some Sample.r2, some Sample.r3])
      [Sample.r1, Sample.r2, Sample.r3] rfl rfl
    exact ⟨recs, hF, hl⟩

/-! ## A date that does not parse -/

theorem GitHub_stamp_of_bad_date (j : Job)
    (h : time.Parse time.layoutGitHub j.DateString = none) :
    GitHubFormatter.stamp j = { j with Date := time.Time.zero, Source := "Github Jobs" } := by
  simp only [GitHubFormatter.stamp, h, Option.getD_none]
  rfl

theorem StackOverflow_stamp_of_bad_date (j : Job)
    (h : time.Parse time.layoutStackOverflow j.DateString = none) :
    StackOverflowFormatter.stamp j =
      { j with Date := time.Time.zero, Source := "Stack Overflow" } := by
  simp only [StackOverflowFormatter.stamp, h, Option.getD_none]
  rfl

theorem items_of_no_nil {α : Type} (l : List (Option α)) (h : ∀ x ∈ l, x ≠ none) :
    ∃ items : List α, l = items.map some := by
  induction l with
  | nil => exact ⟨[], rfl⟩
  | cons a l ih =>
    obtain ⟨items, hi⟩ := ih (fun x hx => h x (List.mem_cons_of_mem _ hx))
    cases a with
    | none => exact absurd rfl (h none (List.mem_cons_self _ _))
    | some v => exact ⟨v :: items, by rw [hi]; rfl⟩

theorem GitHub_Format_insert (env : Env) (res rest : Bytes) (d d2 : Slice (Option Job))
    (pre post : List (Option Job)) (j : Job)
    (hd : env.jsonDecode res = Except.ok d) (he : d.elems = pre ++ some j :: post)
    (hd2 : env.jsonDecode rest = Except.ok d2) (he2 : d2.elems = pre ++ post) :
    GitHubFormatter.Format env res =
      (GitHubFormatter.Format env rest).map
        (fun s => s.insertAt pre.length (some (GitHubFormatter.stamp j))) := by
  cases d with
  | none => simp [Slice.elems] at he
  | some l =>
    have hl : l = pre ++ some j :: post := he
    simp only [GitHubFormatter.Format, hd, hd2, hl, GitHub_loop_insert, Outcome.map_map]
    cases d2 with
    | none =>
      have h0 : pre ++ post = [] := by simpa [Slice.elems] using he2.symm
      have hp : pre = [] := (List.append_eq_nil.mp h0).1
      have hq : post = [] := (List.append_eq_nil.mp h0).2
      subst hp hq
      rfl
    | some l2 =>
      have hl2 : l2 = pre ++ post := he2
      simp only [hl2, Outcome.map_map]
      rfl

theorem StackOverflow_Format_insert (env : Env) (res rest : Bytes)
    (d d2 : Slice (Option Job)) (pre post : List (Option Job)) (j : Job)
    (hd : env.xmlDecode res = Except.ok d) (he : d.elems = pre ++ some j :: post)
    (hd2 : env.xmlDecode rest = Except.ok d2) (he2 : d2.elems = pre ++ post) :
    StackOverflowFormatter.Format env res =
      (StackOverflowFormatter.Format env rest).map
        (fun s => s.insertAt pre.length (some (StackOverflowFormatter.stamp j))) := by
  cases d with
  | none => simp [Slice.elems] at he
  | some l =>
    have hl : l = pre ++ some j :: post := he
    simp only [StackOverflowFormatter.Format, hd, hd2, hl, StackOverflow_loop_insert,
      Outcome.map_map]
    cases d2 with
    | none =>
      have h0 : pre ++ post = [] := by simpa [Slice.elems] using he2.symm
      have hp : pre = [] := (List.append_eq_nil.mp h0).1
      have hq : post = [] := (List.append_eq_nil.mp h0).2
      subst hp hq
      rfl
    | some l2 =>
      have hl2 : l2 = pre ++ post := he2
      simp only [hl2, Outcome.map_map]
      rfl

theorem RemoteOk_Format_insert (env : Env) (res rest : Bytes)
    (d d2 : Slice (Option RemoteOkFormatter.job)) (pre post : List (Option RemoteOkFormatter.job))
    (j : RemoteOkFormatter.job)
    (hd : env.xmlDecodeRemoteOk res = Except.ok d) (he : d.elems = pre ++ some j :: post)
    (hd2 : env.xmlDecodeRemoteOk rest = Except.ok d2) (he2 : d2.elems = pre ++ post) :
    RemoteOkFormatter.Format env res =
      (RemoteOkFormatter.Format env rest).map
        (fun s => s.insertAt pre.length (some (RemoteOkFormatter.build j))) := by
  simp only [RemoteOkFormatter.Format, hd, hd2, he, he2, RemoteOk_loop_insert]
  have h0 : Slice.len (none : Slice (Option Job)) + pre.length = pre.length := by
    simp [Slice.len, Slice.elems]
  rw [h0]

/-- What the loops do with a date that does not parse, for each of the three
formatters: when the payload decodes and holds an item `j` (after the elements
`pre`, before `post`) whose date string does not parse in the layout of the
formatter, `Format` ends as it does on the payload without the item (`rest`),
with one record more at the place of the item: the item with `Date` at the
zero time, whatever `Date` the payload gave, `DateString` as it was, `Source`
the label and the other fields as for any item. When the other elements are
items `Format` returns their records unchanged around the record of `j`; when
one of them is a nil pointer `Format` panics with or without `j`. -/
theorem malformed_date_yields_zero_time (env : Env) (res rest : Bytes) :
    (∀ (d d2 : Slice (Option Job)) (pre post : List (Option Job)) (j : Job),
      env.jsonDecode res = Except.ok d → d.elems = pre ++ some j :: post →
      env.jsonDecode rest = Except.ok d2 → d2.elems = pre ++ post →
      time.Parse time.layoutGitHub j.DateString = none →
      GitHubFormatter.Format env res =
        (GitHubFormatter.Format env rest).map (fun s => s.insertAt pre.length
          (some { j with Date := time.Time.zero, Source := "Github Jobs" })) ∧
      ((∀ x ∈ pre ++ post, x ≠ none) → ∃ others,
        GitHubFormatter.Format env rest = Outcome.returned others ∧
        GitHubFormatter.Format env res = Outcome.returned (others.insertAt pre.length
          (some { j with Date := time.Time.zero, Source := "Github Jobs" })))) ∧
    (∀ (d d2 : Slice (Option Job)) (pre post : List (Option Job)) (j : Job),
      env.xmlDecode res = Except.ok d → d.elems = pre ++ some j :: post →
      env.xmlDecode rest = Except.ok d2 → d2.elems = pre ++ post →
      time.Parse time.layoutStackOverflow j.DateString = none →
      StackOverflowFormatter.Format env res =
        (StackOverflowFormatter.Format env rest).map (fun s => s.insertAt pre.length
          (some { j with Date := time.Time.zero, Source := "Stack Overflow" })) ∧
      ((∀ x ∈ pre ++ post, x ≠ none) → ∃ others,
        StackOverflowFormatter.Format env rest = Outcome.returned others ∧
        StackOverflowFormatter.Format env res = Outcome.returned (others.insertAt pre.length
          (some { j with Date := time.Time.zero, Source := "Stack Overflow" })))) ∧
    (∀ (d d2 : Slice (Option RemoteOkFormatter.job))
      (pre post : List (Option RemoteOkFormatter.job)) (j : RemoteOkFormatter.job),
      env.xmlDecodeRemoteOk res = Except.ok d → d.elems = pre ++ some j :: post →
      env.xmlDecodeRemoteOk rest = Except.ok d2 → d2.elems = pre ++ post →
      time.Parse time.layoutRemoteOk j.DateString = none →
      RemoteOkFormatter.Format env res =
        (RemoteOkFormatter.Format env rest).map (fun s => s.insertAt pre.length
          (some { ID := strings.TrimSpace j.ID,
                  DateString := j.DateString,
                  Date := time.Time.zero,
                  Company := strings.TrimSpace j.Company,
                  CompanyURL := "",
                  Location := "",
                  Position := strings.TrimSpace j.Position,
                  Apply := strings.TrimSpace j.Apply,
                  Source := "RemoteOK Jobs",
                  Description := j.Description })) ∧
      ((∀ x ∈ pre ++ post, x ≠ none) → ∃ others,
        RemoteOkFormatter.Format env rest = Outcome.returned others ∧
        RemoteOkFormatter.Format env res = Outcome.returned (others.insertAt pre.length
          (some { ID := strings.TrimSpace j.ID,
                  DateString := j.DateString,
                  Date := time.Time.zero,
                  Company := strings.TrimSpace j.Company,
                  CompanyURL := "",
                  Location := "",
                  Position := strings.TrimSpace j.Position,
                  Apply := strings.TrimSpace j.Apply,
                  Source := "RemoteOK Jobs",
                  Description := j.Description })))) := by
  refine ⟨?_, ?_, ?_⟩
  · intro d d2 pre post j hd he hd2 he2 hp
    have h1 := GitHub_Format_insert env res rest d d2 pre post j hd he hd2 he2
    rw [GitHub_stamp_of_bad_date j hp] at h1
    refine ⟨h1, ?_⟩
    intro hno
    obtain ⟨items, hi⟩ := items_of_no_nil _ hno
    obtain ⟨others, hF, _⟩ := GitHub_Format_items env rest d2 items hd2 (he2.trans hi)
    exact ⟨others, hF, by rw [h1, hF]; rfl⟩
  · intro d d2 pre post j hd he hd2 he2 hp
    have h1 := StackOverflow_Format_insert env res rest d d2 pre post j hd he hd2 he2
    rw [StackOverflow_stamp_of_bad_date j hp] at h1
    refine ⟨h1, ?_⟩
    intro hno
    obtain ⟨items, hi⟩ := items_of_no_nil _ hno
    obtain ⟨others, hF, _⟩ := StackOverflow_Format_items env rest d2 items hd2 (he2.trans hi)
    exact ⟨others, hF, by rw [h1, hF]; rfl⟩
  · intro d d2 pre post j hd he hd2 he2 hp
    have h1 := RemoteOk_Format_insert env res rest d d2 pre post j hd he hd2 he2
    rw [RemoteOk_build_eq, hp] at h1
    refine ⟨h1, ?_⟩
    intro hno
    obtain ⟨items, hi⟩ := items_of_no_nil _ hno
    obtain ⟨others, hF, _⟩ := RemoteOk_Format_items env rest d2 items hd2 (he2.trans hi)
    exact ⟨others, hF, by rw [h1, hF]; rfl⟩

theorem malformed_date_yields_zero_time_witness :
    time.Parse time.layoutGitHub Sample.g2.DateString = none ∧
    Sample.g2.Date ≠ time.Time.zero ∧
    GitHubFormatter.Format Sample.env Sample.githubDatedRest =
      Outcome.returned (some [some (GitHubFormatter.stamp Sample.g1),
        some (GitHubFormatter.stamp Sample.g3)]) ∧
    GitHubFormatter.Format Sample.env Sample.githubDated =
      Outcome.returned (some [some (GitHubFormatter.stamp Sample.g1),
        some { Sample.g2 with Date := time.Time.zero, Source := "Github Jobs" },
        some (GitHubFormatter.stamp Sample.g3)]) := by
  have h := ((malformed_date_yields_zero_time Sample.env Sample.githubDated
    Sample.githubDatedRest).1 (some [some Sample.g1, some Sample.g2, some Sample.g3])
    (some [some Sample.g1, some Sample.g3]) [some Sample.g1] [some Sample.g3] Sample.g2
    rfl rfl rfl rfl (by decide)).1
  have hrest : GitHubFormatter.Format Sample.env Sample.githubDatedRest =
      Outcome.returned (some [some (GitHubFormatter.stamp Sample.g1),
        some (GitHubFormatter.stamp Sample.g3)]) := rfl
  refine ⟨by decide, by decide, hrest, ?_⟩
  rw [h, hrest]
  rfl

/-- C4 (the code at the failing input): the payload
`[{"id":"g2","created_at":"yesterday"},null]` decodes to the job and a nil
pointer. The date of the job does not parse; without the `null` the job is
emitted with `Date` at the zero time, but with it the loop of
`GitHubFormatter.Format` goes on to the nil pointer and panics, so the call
returns no records and the item is not emitted. -/
theorem malformed_date_item_lost_to_nil_panic :
    time.Parse time.layoutGitHub (Sample.jobOf "g2" "yesterday").DateString = none ∧
    GitHubFormatter.Format Sample.envNull Sample.githubBadDate =
      Outcome.returned (some [some { Sample.jobOf "g2" "yesterday" with
        Date := time.Time.zero, Source := "Github Jobs" }]) ∧
    GitHubFormatter.Format Sample.envNull Sample.githubBadDateNull =
      Outcome.panicked nilDeref ∧
    ∀ recs, GitHubFormatter.Format Sample.envNull Sample.githubBadDateNull ≠
      Outcome.returned recs := by
  have hp : GitHubFormatter.Format Sample.envNull Sample.githubBadDateNull =
      Outcome.panicked nilDeref := rfl
  refine ⟨by decide, rfl, hp, ?_⟩
  intro recs h
  rw [hp] at h
  cases h

/-! ## Trimmed fields -/

theorem trimSpaceChars_spec (s : List Char) :
    ∃ l r : List Char, s = l ++ strings.trimSpaceChars s ++ r ∧
      (∀ c ∈ l, unicode.IsSpace c = true) ∧ (∀ c ∈ r, unicode.IsSpace c = true) ∧
      (∀ c, (strings.trimSpaceChars s).head? = some c → unicode.IsSpace c = false) ∧
      (∀ c, (strings.trimSpaceChars s).getLast? = some c → unicode.IsSpace c = false) := by
  have hsplit : s = s.takeWhile unicode.IsSpace ++ s.dropWhile unicode.IsSpace :=
    (List.takeWhile_append_dropWhile unicode.IsSpace s).symm
  have hm : s.dropWhile unicode.IsSpace =
      strings.trimSpaceChars s ++ (s.dropWhile unicode.IsSpace).rtakeWhile unicode.IsSpace := by
    have h := List.takeWhile_append_dropWhile unicode.IsSpace
      (s.dropWhile unicode.IsSpace).reverse
    have h2 := congrArg List.reverse h
    rw [List.reverse_append, List.reverse_reverse] at h2
    exact h2.symm
  refine ⟨s.takeWhile unicode.IsSpace,
    (s.dropWhile unicode.IsSpace).rtakeWhile unicode.IsSpace, ?_, ?_, ?_, ?_, ?_⟩
  · rw [List.append_assoc, ← hm]
    exact hsplit
  · intro c hc
    exact List.mem_takeWhile_imp hc
  · intro c hc
    exact List.mem_rtakeWhile_imp hc
  · intro c hc
    have hpre : strings.trimSpaceChars s <+: s.dropWhile unicode.IsSpace :=
      ⟨_, hm.symm⟩
    have hhead : (s.dropWhile unicode.IsSpace).head? = some c := by
      obtain ⟨t, ht⟩ := hpre
      rw [← ht]
      cases hts : strings.trimSpaceChars s with
      | nil => rw [hts] at hc; cases hc
      | cons a as =>
        rw [hts] at hc
        simpa using hc
    have hnot := List.head?_dropWhile_not unicode.IsSpace s
    rw [hhead] at hnot
    simpa using hnot
  · intro c hc
    have hne : (s.dropWhile unicode.IsSpace).rdropWhile unicode.IsSpace ≠ [] := by
      intro h0
      have : strings.trimSpaceChars s = [] := h0
      rw [this] at hc
      cases hc
    have hlast := List.rdropWhile_last_not (p := unicode.IsSpace)
      (l := s.dropWhile unicode.IsSpace) hne
    have hc2 : ((s.dropWhile unicode.IsSpace).rdropWhile unicode.IsSpace).getLast? = some c := hc
    rw [List.getLast?_eq_getLast _ hne] at hc2
    injection hc2 with hc2
    rw [hc2] at hlast
    simpa using hlast

theorem TrimSpace_isTrimOf (s : String) : IsTrimOf (strings.TrimSpace s) s :=
  trimSpaceChars_spec s.toList

/-- C5: for every item `j` that `RemoteOkFormatter.Format` processes, the
record emitted at the place of the item has `ID`, `Position`, `Company` and
`Apply` equal to the `guid`, `title`, `company` and `link` of the item with
all leading and trailing white space removed, `Source` equal to the label
`RemoteOK Jobs` (which is its own trimmed form), and `Description` equal to
the description of the item, untrimmed. -/
theorem RemoteOk_trims_all_but_description (env : Env) (res : Bytes)
    (d : Slice (Option RemoteOkFormatter.job)) (items : List RemoteOkFormatter.job)
    (i : Nat) (j : RemoteOkFormatter.job)
    (hd : env.xmlDecodeRemoteOk res = Except.ok d) (he : d.elems = items.map some)
    (hj : items.get? i = some j) :
    ∃ recs r, RemoteOkFormatter.Format env res = Outcome.returned recs ∧
      recs.elems.get? i = some (some r) ∧
      IsTrimOf r.ID j.ID ∧ IsTrimOf r.Position j.Position ∧ IsTrimOf r.Company j.Company ∧
      IsTrimOf r.Apply j.Apply ∧
      IsTrimOf r.Source "RemoteOK Jobs" ∧ r.Source = "RemoteOK Jobs" ∧
      r.Description = j.Description := by
  obtain ⟨recs, hF, hr⟩ := RemoteOk_Format_items env res d items hd he
  refine ⟨recs, RemoteOkFormatter.build j, hF, ?_, ?_⟩
  · rw [hr, List.get?_eq_getElem?, List.getElem?_map, ← List.get?_eq_getElem?, hj]
    rfl
  · refine ⟨TrimSpace_isTrimOf j.ID, TrimSpace_isTrimOf j.Position,
      TrimSpace_isTrimOf j.Company, TrimSpace_isTrimOf j.Apply, ?_, ?_, rfl⟩
    · have h := TrimSpace_isTrimOf RemoteOkFormatter.label
      rw [RemoteOk_label_trimmed] at h
      exact h
    · exact RemoteOk_label_trimmed

theorem RemoteOk_trims_all_but_description_witness :
    Sample.r1.Company = "  Acme Inc.  " ∧ Sample.r1.Description = " We hire. " ∧
    ∃ recs r, RemoteOkFormatter.Format Sample.env Sample.remoteThree = Outcome.returned recs ∧
      recs.elems.get? 0 = some (some r) ∧
      r.Company = "Acme Inc." ∧ r.ID = "r1" ∧ r.Description = " We hire. " := by
  refine ⟨rfl, rfl, ?_⟩
  obtain ⟨recs, r, hF, hr, _, _, _, _, _, _, hdesc⟩ :=
    RemoteOk_trims_all_but_description Sample.env Sample.remoteThree
      (some [some Sample.r1, some Sample.r2, some Sample.r3])
      [Sample.r1, Sample.r2, Sample.r3] 0 Sample.r1 rfl rfl rfl
  have hF2 : RemoteOkFormatter.Format Sample.env Sample.remoteThree =
      Outcome.returned (some [some (RemoteOkFormatter.build Sample.r1),
        some (RemoteOkFormatter.build Sample.r2), some (RemoteOkFormatter.build Sample.r3)]) :=
    rfl
  rw [hF2] at hF
  injection hF with hF
  subst hF
  have hr2 : r = RemoteOkFormatter.build Sample.r1 := by
    have h0 : (some (some (RemoteOkFormatter.build Sample.r1)) : Option (Option Job)) =
        some (some r) := hr
    injection h0 with h0
    injection h0 with h0
    exact h0.symm
  subst hr2
  exact ⟨_, _, rfl, rfl, by decide, by decide, hdesc⟩

/-! ## time.Parse on dates written in the layouts -/

theorem cutspace_length_le (s : List Char) : (time.cutspace s).length ≤ s.length := by
  unfold time.cutspace
  exact (List.dropWhile_sublist _).length_le

theorem skipLoop_fuel (n m : Nat) (value pfx : List Char) (hn : pfx.length ≤ n)
    (hm : pfx.length ≤ m) : time.skipLoop n value pfx = time.skipLoop m value pfx := by
  induction n generalizing m value pfx with
  | zero =>
    cases pfx with
    | nil => cases m <;> rfl
    | cons p ps => simp at hn
  | succ n ih =>
    cases pfx with
    | nil => cases m <;> rfl
    | cons p ps =>
      cases m with
      | zero => simp at hm
      | succ m =>
        simp only [List.length_cons, Nat.add_le_add_iff_right] at hn hm
        unfold time.skipLoop
        by_cases hp : (p == ' ') = true
        · have hc : (time.cutspace (p :: ps)).length ≤ ps.length := by
            have hle := cutspace_length_le ps
            simp only [time.cutspace, List.dropWhile, hp] at hle ⊢
            exact hle
          simp only [hp, if_true]
          split
          · rfl
          · exact ih m _ _ (by omega) (by omega)
        · simp only [hp, Bool.false_eq_true, if_false]
          split
          · rfl
          · exact ih m _ _ hn hm

/-- The loop of `skip` never runs out of iterations: any number of them from
`pfx.length` on gives the result of `skip`. -/
theorem skip_fuel_enough (n : Nat) (value pfx : List Char) (h : pfx.length ≤ n) :
    time.skipLoop n value pfx = time.skip value pfx :=
  skipLoop_fuel n pfx.length value pfx h (Nat.le_refl _)

theorem isDigitChar_digitChar (n : Nat) (h : n < 10) : time.isDigitChar (digitChar n) = true := by
  interval_cases n <;> decide

theorem digitVal_digitChar (n : Nat) (h : n < 10) : time.digitVal (digitChar n) = (n : Int) := by
  interval_cases n <;> decide

theorem digitChar_ne_space (n : Nat) (h : n < 10) : (digitChar n == ' ') = false := by
  interval_cases n <;> decide

theorem getnum_two (a b : Nat) (ha : a < 10) (hb : b < 10) (rest : List Char) (fixed : Bool) :
    time.getnum (digitChar a :: digitChar b :: rest) fixed = some ((a : Int) * 10 + b, rest) := by
  simp [time.getnum, time.isDigit, isDigitChar_digitChar, digitVal_digitChar, ha, hb]

theorem getnum_pad2 (n : Nat) (h : n < 100) (rest : List Char) (fixed : Bool) :
    time.getnum (pad2 n ++ rest) fixed = some ((n : Int), rest) := by
  have h1 : n / 10 < 10 := by omega
  have h2 : n % 10 < 10 := by omega
  simp only [pad2, List.cons_append, List.nil_append]
  rw [getnum_two _ _ h1 h2]
  congr 2
  omega

theorem getnum_one (a : Nat) (ha : a < 10) (c : Char) (hc : time.isDigitChar c = false)
    (rest : List Char) :
    time.getnum (digitChar a :: c :: rest) false = some ((a : Int), c :: rest) := by
  simp [time.getnum, time.isDigit, isDigitChar_digitChar, digitVal_digitChar, ha, hc]

theorem atoi_pad4 (n : Nat) (h : n ≤ 9999) : time.atoi (pad4 n) = some (n : Int) := by
  have h1 : n / 1000 < 10 := by omega
  have h2 : n / 100 % 10 < 10 := by omega
  have h3 : n / 10 % 10 < 10 := by omega
  have h4 : n % 10 < 10 := by omega
  have hd : ∀ k, k < 10 → digitChar k ≠ '-' ∧ digitChar k ≠ '+' := by
    intro k hk
    interval_cases k <;> decide
  have e : time.atoi (pad4 n) = time.atoiDigits (pad4 n) 0 := by
    unfold time.atoi pad4
    split
    · rename_i heq
      injection heq with h0 _
      exact absurd h0 (hd _ h1).1
    · rename_i heq
      injection heq with h0 _
      exact absurd h0 (hd _ h1).2
    · rfl
  rw [e]
  simp only [pad4, time.atoiDigits, isDigitChar_digitChar, digitVal_digitChar, h1, h2, h3, h4,
    if_true]
  congr 1
  omega

theorem lookup_dayName (wd : Nat) (h : wd < 7) (rest : List Char) :
    time.lookup time.shortDayNames (dayName wd ++ rest) = some (wd, rest) := by
  interval_cases wd <;>
    simp [time.lookup, time.lookupFrom, time.shortDayNames, dayName, time.matchFold]

theorem lookup_monthName (m : Nat) (h1 : 1 ≤ m) (h2 : m ≤ 12) (rest : List Char) :
    time.lookup time.shortMonthNames (monthName m ++ rest) = some (m - 1, rest) := by
  interval_cases m <;>
    simp [time.lookup, time.lookupFrom, time.shortMonthNames, monthName, time.matchFold]

theorem skip_nil (v : List Char) : time.skip v [] = some v := rfl

theorem skip_char (c : Char) (hc : (c == ' ') = false) (v : List Char) :
    time.skip (c :: v) [c] = some v := by
  simp [time.skip, time.skipLoop, hc]

theorem cutspace_cons (c : Char) (hc : (c == ' ') = false) (v : List Char) :
    time.cutspace (c :: v) = c :: v := by
  simp [time.cutspace, List.dropWhile, hc]

theorem cutspace_pad2 (n : Nat) (h : n < 100) (rest : List Char) :
    time.cutspace (pad2 n ++ rest) = pad2 n ++ rest := by
  have h1 : n / 10 < 10 := by omega
  simp only [pad2, List.cons_append]
  exact cutspace_cons _ (digitChar_ne_space _ h1) _

theorem cutspace_pad4 (n : Nat) (h : n ≤ 9999) (rest : List Char) :
    time.cutspace (pad4 n ++ rest) = pad4 n ++ rest := by
  have h1 : n / 1000 < 10 := by omega
  simp only [pad4, List.cons_append]
  exact cutspace_cons _ (digitChar_ne_space _ h1) _

theorem cutspace_monthName (m : Nat) (h1 : 1 ≤ m) (h2 : m ≤ 12) (rest : List Char) :
    time.cutspace (monthName m ++ rest) = monthName m ++ rest := by
  interval_cases m <;> simp [monthName, time.shortMonthNames, time.cutspace, List.dropWhile]

theorem skip_space_any (v : List Char) : time.skip (' ' :: v) [' '] = some (time.cutspace v) := by
  simp [time.skip, time.skipLoop, time.cutspace, List.dropWhile]

theorem skip_comma_space (v : List Char) :
    time.skip (',' :: ' ' :: v) [',', ' '] = some (time.cutspace v) := by
  simp [time.skip, time.skipLoop, time.cutspace, List.dropWhile]

theorem skip_utc (v : List Char) :
    time.skip (' ' :: 'U' :: 'T' :: 'C' :: ' ' :: v) [' ', 'U', 'T', 'C', ' '] =
      some (time.cutspace v) := by
  simp [time.skip, time.skipLoop, time.cutspace, List.dropWhile]

theorem skip_colon (v : List Char) : time.skip (':' :: v) [':'] = some v :=
  skip_char ':' (by decide) v

theorem skip_dash (v : List Char) : time.skip ('-' :: v) ['-'] = some v :=
  skip_char '-' (by decide) v

theorem skip_T (v : List Char) : time.skip ('T' :: v) ['T'] = some v :=
  skip_char 'T' (by decide) v

theorem skip_space_Z : time.skip [' ', 'Z'] [' ', 'Z'] = some [] := by decide

theorem parseStd_weekday (y mo d h mi s ns z : Int) (wd : Nat) (hwd : wd < 7)
    (rest : List Char) :
    time.parseStd time.Std.stdWeekDay ⟨y, mo, d, h, mi, s, ns, z, dayName wd ++ rest⟩ =
      some ⟨y, mo, d, h, mi, s, ns, z, rest⟩ := by
  simp only [time.parseStd, lookup_dayName wd hwd]

theorem parseStd_month (y mo d h mi s ns z : Int) (m : Nat) (h1 : 1 ≤ m) (h2 : m ≤ 12)
    (rest : List Char) :
    time.parseStd time.Std.stdMonth ⟨y, mo, d, h, mi, s, ns, z, monthName m ++ rest⟩ =
      some ⟨y, (m : Int), d, h, mi, s, ns, z, rest⟩ := by
  simp only [time.parseStd, lookup_monthName m h1 h2]
  congr 2
  omega

theorem parseStd_zeroMonth (y mo d h mi s ns z : Int) (m : Nat) (h1 : 1 ≤ m) (h2 : m ≤ 12)
    (rest : List Char) :
    time.parseStd time.Std.stdZeroMonth ⟨y, mo, d, h, mi, s, ns, z, pad2 m ++ rest⟩ =
      some ⟨y, (m : Int), d, h, mi, s, ns, z, rest⟩ := by
  simp [time.parseStd, getnum_pad2 m (by omega)]
  constructor <;> omega

theorem parseStd_zeroDay (y mo d h mi s ns z : Int) (n : Nat) (hn : n < 100)
    (rest : List Char) :
    time.parseStd time.Std.stdZeroDay ⟨y, mo, d, h, mi, s, ns, z, pad2 n ++ rest⟩ =
      some ⟨y, mo, (n : Int), h, mi, s, ns, z, rest⟩ := by
  simp [time.parseStd, getnum_pad2 n hn]

theorem parseStd_hour (y mo d h mi s ns z : Int) (n : Nat) (hn : n < 24)
    (rest : List Char) :
    time.parseStd time.Std.stdHour ⟨y, mo, d, h, mi, s, ns, z, pad2 n ++ rest⟩ =
      some ⟨y, mo, d, (n : Int), mi, s, ns, z, rest⟩ := by
  simp [time.parseStd, getnum_pad2 n (by omega), hn]

theorem parseStd_zeroMinute (y mo d h mi s ns z : Int) (n : Nat) (hn : n < 60)
    (rest : List Char) :
    time.parseStd time.Std.stdZeroMinute ⟨y, mo, d, h, mi, s, ns, z, pad2 n ++ rest⟩ =
      some ⟨y, mo, d, h, (n : Int), s, ns, z, rest⟩ := by
  simp [time.parseStd, getnum_pad2 n (by omega), hn]

theorem parseStd_zeroSecond (y mo d h mi s ns z : Int) (n : Nat) (hn : n < 60)
    (c : Char) (hc : time.commaOrPeriod c = false) (rest : List Char) :
    time.parseStd time.Std.stdZeroSecond ⟨y, mo, d, h, mi, s, ns, z, pad2 n ++ c :: rest⟩ =
      some ⟨y, mo, d, h, mi, (n : Int), ns, z, c :: rest⟩ := by
  simp [time.parseStd, getnum_pad2 n (by omega), hn, hc]

theorem parseStd_longYear (y mo d h mi s ns z : Int) (n : Nat) (hn : n ≤ 9999)
    (rest : List Char) :
    time.parseStd time.Std.stdLongYear ⟨y, mo, d, h, mi, s, ns, z, pad4 n ++ rest⟩ =
      some ⟨(n : Int), mo, d, h, mi, s, ns, z, rest⟩ := by
  have h1 : n / 1000 < 10 := by omega
  have ht : (pad4 n ++ rest).take 4 = pad4 n := by simp [pad4]
  have hdr : (pad4 n ++ rest).drop 4 = rest := by simp [pad4]
  have hlen : ¬ ((pad4 n ++ rest).length < 4) := by simp [pad4]
  have hdig : time.isDigit (pad4 n ++ rest) 0 = true := by
    simp [pad4, time.isDigit, isDigitChar_digitChar _ h1]
  simp only [time.parseStd, ht, hdr, hlen, hdig, atoi_pad4 n hn, decide_False, Bool.not_true,
    Bool.or_self, Bool.false_eq_true, if_false]

theorem parseStd_underDay (y mo d h mi s ns z : Int) (n : Nat) (h1 : 1 ≤ n) (hn : n < 100)
    (rest : List Char) :
    time.parseStd time.Std.stdUnderDay
        ⟨y, mo, d, h, mi, s, ns, z, time.cutspace (underPad2 n ++ ' ' :: rest)⟩ =
      some ⟨y, mo, (n : Int), h, mi, s, ns, z, ' ' :: rest⟩ := by
  by_cases h10 : n < 10
  · have hsp := digitChar_ne_space n h10
    have hg := getnum_one n h10 ' ' (by decide) rest
    simp [underPad2, h10, time.cutspace, List.dropWhile, hsp, time.parseStd, hg]
  · have hc := cutspace_pad2 n hn (' ' :: rest)
    have hg := getnum_pad2 n hn (' ' :: rest) false
    have h0 : n / 10 < 10 := by omega
    have hsp := digitChar_ne_space (n / 10) h0
    simp only [underPad2, h10, if_false, hc, time.parseStd]
    simp only [pad2, List.cons_append, List.nil_append] at hg ⊢
    simp [hsp, hg]

theorem norm_id (hi lo base : Int) (h0 : 0 ≤ lo) (h1 : lo < base) :
    time.norm hi lo base = (hi, lo) := by
  have h2 : ¬ lo < 0 := by omega
  have h3 : ¬ lo ≥ base := by omega
  simp [time.norm, h2, h3]

theorem isLeap_eq (y : Nat) : time.isLeap (y : Int) = leapYear y := by
  rw [Bool.eq_iff_iff]
  simp only [time.isLeap, leapYear, Bool.and_eq_true, Bool.or_eq_true, beq_iff_eq, bne_iff_ne,
    ne_eq]
  omega

theorem daysSinceEpoch_eq (y : Nat) :
    time.daysSinceEpoch (y : Int) = daysBeforeYear y + 106751990353932 := by
  simp only [time.daysSinceEpoch, time.absoluteZeroYear, daysBeforeYear]
  omega

theorem daysIn_eq (y m : Nat) (h1 : 1 ≤ m) (h2 : m ≤ 12) :
    time.daysIn (m : Int) (y : Int) = (monthLength y m : Int) := by
  have hl := isLeap_eq y
  interval_cases m <;> cases hly : leapYear y <;>
    simp [time.daysIn, monthLength, time.daysBefore, hl, hly]

theorem daysBefore_eq (y m : Nat) (h1 : 1 ≤ m) (h2 : m ≤ 12) :
    (if (time.isLeap (y : Int) && decide ((m : Int) ≥ 3)) = true
      then time.daysBefore.getD ((m : Int) - 1).toNat 0 + 1
      else time.daysBefore.getD ((m : Int) - 1).toNat 0) = (daysBeforeMonth y m : Int) := by
  have hl := isLeap_eq y
  interval_cases m <;> cases hly : leapYear y <;>
    simp [daysBeforeMonth, monthLength, time.daysBefore, hl, hly, List.range_succ]

theorem Date_eq (c : Civil) (h : c.valid) :
    time.Date c.year c.month c.day c.hour c.minute c.second 0 =
      ⟨c.instant 0, 0, time.Location.UTC⟩ := by
  obtain ⟨hy, hm1, hm2, hd1, hd2, hh, hmi, hs⟩ := h
  have n1 : time.norm (c.year : Int) ((c.month : Int) - 1) 12 = ((c.year : Int), (c.month : Int) - 1) :=
    norm_id _ _ _ (by omega) (by omega)
  have n2 : time.norm (c.second : Int) 0 1000000000 = ((c.second : Int), 0) :=
    norm_id _ _ _ (by omega) (by omega)
  have n3 : time.norm (c.minute : Int) (c.second : Int) 60 = ((c.minute : Int), (c.second : Int)) :=
    norm_id _ _ _ (by omega) (by omega)
  have n4 : time.norm (c.hour : Int) (c.minute : Int) 60 = ((c.hour : Int), (c.minute : Int)) :=
    norm_id _ _ _ (by omega) (by omega)
  have n5 : time.norm (c.day : Int) (c.hour : Int) 24 = ((c.day : Int), (c.hour : Int)) :=
    norm_id _ _ _ (by omega) (by omega)
  have hb := daysBefore_eq c.year c.month hm1 hm2
  unfold time.Date
  rw [n1]
  simp only []
  rw [n2]
  simp only []
  rw [n3]
  simp only []
  rw [n4]
  simp only []
  rw [n5]
  simp only []
  have e : (c.month : Int) - 1 + 1 = (c.month : Int) := by omega
  rw [e]
  congr 1
  rw [daysSinceEpoch_eq, Civil.instant, ← hb]
  generalize time.daysBefore.getD ((c.month : Int) - 1).toNat 0 = t
  generalize daysBeforeYear c.year = b
  simp only [time.absoluteToInternal]
  split <;> omega

theorem parseChunks_GitHub (wd : Nat) (hwd : wd < 7) (c : Civil) (h : c.valid) :
    time.parseChunks time.layoutGitHub.chunks (time.Fields.init (formatGitHub wd c)) =
      some ⟨c.year, c.month, c.day, c.hour, c.minute, c.second, 0, -1, []⟩ := by
  obtain ⟨hy, hm1, hm2, hd1, hd2, hh, hmi, hs⟩ := h
  have hd3 : c.day < 100 := by
    have : monthLength c.year c.month ≤ 31 := by
      unfold monthLength; split <;> [split; split] <;> omega
    omega
  simp only [time.layoutGitHub, time.parseChunks, time.Fields.init, formatGitHub, skip_nil,
    parseStd_weekday _ _ _ _ _ _ _ _ wd hwd, skip_space_any,
    cutspace_monthName _ hm1 hm2, parseStd_month _ _ _ _ _ _ _ _ _ hm1 hm2,
    parseStd_underDay _ _ _ _ _ _ _ _ _ hd1 hd3,
    cutspace_pad2 _ (show c.hour < 100 by omega), parseStd_hour _ _ _ _ _ _ _ _ _ hh,
    skip_colon, parseStd_zeroMinute _ _ _ _ _ _ _ _ _ hmi,
    parseStd_zeroSecond _ _ _ _ _ _ _ _ _ hs ' ' (by decide), skip_utc,
    cutspace_pad4 _ hy, parseStd_longYear _ _ _ _ _ _ _ _ _ hy]

theorem monthLength_le (y m : Nat) : monthLength y m ≤ 31 := by
  unfold monthLength; split <;> [split; split] <;> omega

theorem parseChunks_StackOverflow (wd : Nat) (hwd : wd < 7) (c : Civil) (h : c.valid) :
    time.parseChunks time.layoutStackOverflow.chunks
        (time.Fields.init (formatStackOverflow wd c)) =
      some ⟨c.year, c.month, c.day, c.hour, c.minute, c.second, 0, -1, [' ', 'Z']⟩ := by
  obtain ⟨hy, hm1, hm2, hd1, hd2, hh, hmi, hs⟩ := h
  have hd3 : c.day < 100 := by
    have := monthLength_le c.year c.month
    omega
  simp only [time.layoutStackOverflow, time.parseChunks, time.Fields.init, formatStackOverflow,
    skip_nil, parseStd_weekday _ _ _ _ _ _ _ _ wd hwd, skip_space_any, skip_comma_space,
    cutspace_monthName _ hm1 hm2, parseStd_month _ _ _ _ _ _ _ _ _ hm1 hm2,
    parseStd_underDay _ _ _ _ _ _ _ _ _ hd1 hd3,
    cutspace_pad2 _ (show c.hour < 100 by omega), parseStd_hour _ _ _ _ _ _ _ _ _ hh,
    skip_colon, parseStd_zeroMinute _ _ _ _ _ _ _ _ _ hmi,
    parseStd_zeroSecond _ _ _ _ _ _ _ _ _ hs ' ' (by decide),
    cutspace_pad4 _ hy, parseStd_longYear _ _ _ _ _ _ _ _ _ hy]

theorem parseStd_numColonTZ (y mo d h mi s ns z : Int) (west : Bool) (oh om : Nat)
    (hoh : oh < 24) (hom : om < 60) :
    time.parseStd time.Std.stdNumColonTZ
        ⟨y, mo, d, h, mi, s, ns, z, (if west then '-' else '+') :: (pad2 oh ++ ':' :: (pad2 om ++ []))⟩ =
      some ⟨y, mo, d, h, mi, s, ns, offsetSeconds west oh om, []⟩ := by
  have g1 : time.getnum (pad2 oh) true = some ((oh : Int), []) := by
    have := getnum_pad2 oh (by omega) [] true
    simpa using this
  have g2 : time.getnum (pad2 om) true = some ((om : Int), []) := by
    have := getnum_pad2 om (by omega) [] true
    simpa using this
  have e1 : (((if west then '-' else '+') :: (pad2 oh ++ ':' :: (pad2 om ++ []))).drop 1).take 2
      = pad2 oh := by simp [pad2]
  have e2 : (((if west then '-' else '+') :: (pad2 oh ++ ':' :: (pad2 om ++ []))).drop 4).take 2
      = pad2 om := by simp [pad2]
  have e3 : ((if west then '-' else '+') :: (pad2 oh ++ ':' :: (pad2 om ++ []))).getD 3 ' ' = ':' := by
    simp [pad2]
  have e4 : ((if west then '-' else '+') :: (pad2 oh ++ ':' :: (pad2 om ++ []))).length = 6 := by
    simp [pad2]
  have e5 : ((if west then '-' else '+') :: (pad2 oh ++ ':' :: (pad2 om ++ []))).drop 6 = [] := by
    simp [pad2]
  have e6 : ((if west then '-' else '+') :: (pad2 oh ++ ':' :: (pad2 om ++ []))).getD 0 ' ' =
      (if west then '-' else '+') := by simp
  have r1 : ¬ ((oh : Int) > 24) := by omega
  have r2 : ¬ ((om : Int) > 60) := by omega
  simp only [time.parseStd, e1, e2, e3, e4, e5, e6, g1, g2]
  cases west <;> simp [offsetSeconds, r1, r2]

theorem parseChunks_RemoteOk (c : Civil) (h : c.valid) (west : Bool) (oh om : Nat)
    (hoh : oh < 24) (hom : om < 60) :
    time.parseChunks time.layoutRemoteOk.chunks
        (time.Fields.init (formatRemoteOk c west oh om)) =
      some ⟨c.year, c.month, c.day, c.hour, c.minute, c.second, 0,
        offsetSeconds west oh om, []⟩ := by
  obtain ⟨hy, hm1, hm2, hd1, hd2, hh, hmi, hs⟩ := h
  have hd3 : c.day < 100 := by
    have := monthLength_le c.year c.month
    omega
  have hsign : time.commaOrPeriod (if west then '-' else '+') = false := by
    cases west <;> decide
  simp only [time.layoutRemoteOk, time.parseChunks, time.Fields.init, formatRemoteOk,
    skip_nil, parseStd_longYear _ _ _ _ _ _ _ _ _ hy, skip_dash,
    parseStd_zeroMonth _ _ _ _ _ _ _ _ _ hm1 hm2, parseStd_zeroDay _ _ _ _ _ _ _ _ _ hd3,
    skip_T, parseStd_hour _ _ _ _ _ _ _ _ _ hh,
    skip_colon, parseStd_zeroMinute _ _ _ _ _ _ _ _ _ hmi,
    parseStd_zeroSecond _ _ _ _ _ _ _ _ _ hs _ hsign,
    parseStd_numColonTZ _ _ _ _ _ _ _ _ west oh om hoh hom]

theorem Parse_finish (c : Civil) (h : c.valid) (z : Int) (v : List Char) (rest : List Char)
    (hs : time.skip v rest = some []) (layout : time.Layout) (hr : layout.rest = rest)
    (value : String)
    (hc : time.parseChunks layout.chunks (time.Fields.init value.toList) =
      some ⟨c.year, c.month, c.day, c.hour, c.minute, c.second, 0, z, v⟩) :
    time.Parse layout value =
      some (if z != -1 then ⟨c.instant 0 - z, 0, time.Location.fixed z⟩
        else ⟨c.instant 0, 0, time.Location.UTC⟩) := by
  obtain ⟨hy, hm1, hm2, hd1, hd2, hh, hmi, hsec⟩ := h
  have hm : ¬ ((c.month : Int) < 0) := by omega
  have hd : ¬ ((c.day : Int) < 0) := by omega
  have hdi := daysIn_eq c.year c.month hm1 hm2
  have hD := Date_eq c ⟨hy, hm1, hm2, hd1, hd2, hh, hmi, hsec⟩
  simp only [time.Parse, hc, hr, hs, hm, hd, if_false, hdi, hD, List.length_nil]
  have hr1 : ¬ ((c.day : Int) < 1) := by omega
  have hr2 : ¬ ((c.day : Int) > (monthLength c.year c.month : Int)) := by omega
  simp only [hr1, hr2, decide_False, Bool.or_self, Bool.false_eq_true, if_false]
  by_cases hz : (z != -1) = true
  · simp [hz]
  · simp [hz]

theorem Parse_GitHub_format (wd : Nat) (hwd : wd < 7) (c : Civil) (h : c.valid) :
    time.Parse time.layoutGitHub (String.mk (formatGitHub wd c)) =
      some ⟨c.instant 0, 0, time.Location.UTC⟩ := by
  have hp := Parse_finish c h (-1) [] [] rfl time.layoutGitHub rfl
    (String.mk (formatGitHub wd c)) (parseChunks_GitHub wd hwd c h)
  simpa using hp

theorem Parse_StackOverflow_format (wd : Nat) (hwd : wd < 7) (c : Civil) (h : c.valid) :
    time.Parse time.layoutStackOverflow (String.mk (formatStackOverflow wd c)) =
      some ⟨c.instant 0, 0, time.Location.UTC⟩ := by
  have hp := Parse_finish c h (-1) [' ', 'Z'] [' ', 'Z'] skip_space_Z time.layoutStackOverflow
    rfl (String.mk (formatStackOverflow wd c)) (parseChunks_StackOverflow wd hwd c h)
  simpa using hp

theorem offsetSeconds_ne (west : Bool) (oh om : Nat) : offsetSeconds west oh om ≠ -1 := by
  unfold offsetSeconds
  split <;> omega

theorem Parse_RemoteOk_format (c : Civil) (h : c.valid) (west : Bool) (oh om : Nat)
    (hoh : oh < 24) (hom : om < 60) :
    time.Parse time.layoutRemoteOk (String.mk (formatRemoteOk c west oh om)) =
      some ⟨c.instant (offsetSeconds west oh om), 0,
        time.Location.fixed (offsetSeconds west oh om)⟩ := by
  have hp := Parse_finish c h (offsetSeconds west oh om) [] [] rfl time.layoutRemoteOk rfl
    (String.mk (formatRemoteOk c west oh om)) (parseChunks_RemoteOk c h west oh om hoh hom)
  have hz : (offsetSeconds west oh om != -1) = true := by
    simp [offsetSeconds_ne]
  rw [hp]
  simp only [hz, if_true]
  simp [Civil.instant]

theorem daysBeforeYear_ge (y : Nat) (h : 2 ≤ y) : 365 ≤ daysBeforeYear y := by
  unfold daysBeforeYear
  omega

theorem daysBeforeMonth_pos (y m : Nat) (h1 : 2 ≤ m) (h2 : m ≤ 12) : 31 ≤ daysBeforeMonth y m := by
  interval_cases m <;> cases hly : leapYear y <;>
    simp [daysBeforeMonth, monthLength, hly, List.range_succ]

theorem daysBeforeMonth_le (y m : Nat) (h1 : 1 ≤ m) (h2 : m ≤ 12) :
    daysBeforeMonth y m + monthLength y m ≤ 366 := by
  interval_cases m <;> cases hly : leapYear y <;>
    simp [daysBeforeMonth, monthLength, hly, List.range_succ]

theorem instant_pos_of_year (c : Civil) (h : c.valid) (off : Int) (hoff : off ≤ 86400)
    (hy : 2 ≤ c.year) : 0 < c.instant off := by
  obtain ⟨_, hm1, hm2, hd1, hd2, hh, hmi, hs⟩ := h
  have := daysBeforeYear_ge c.year hy
  unfold Civil.instant
  omega

theorem instant_zero_iff (c : Civil) (h : c.valid) :
    c.instant 0 = 0 ↔
      (c.year = 1 ∧ c.month = 1 ∧ c.day = 1 ∧ c.hour = 0 ∧ c.minute = 0 ∧ c.second = 0) := by
  obtain ⟨hy, hm1, hm2, hd1, hd2, hh, hmi, hs⟩ := h
  constructor
  · intro h0
    have hle := daysBeforeMonth_le c.year c.month hm1 hm2
    by_cases hy2 : 2 ≤ c.year
    · have := daysBeforeYear_ge c.year hy2
      unfold Civil.instant at h0
      omega
    · by_cases hy0 : c.year = 0
      · have hb : daysBeforeYear c.year = -366 := by rw [hy0]; decide
        unfold Civil.instant at h0
        omega
      · have hy1 : c.year = 1 := by omega
        have hb : daysBeforeYear c.year = 0 := by rw [hy1]; decide
        by_cases hm : 2 ≤ c.month
        · have := daysBeforeMonth_pos c.year c.month hm hm2
          unfold Civil.instant at h0
          omega
        · have hm' : c.month = 1 := by omega
          have hbm : daysBeforeMonth c.year c.month = 0 := by rw [hm']; rfl
          unfold Civil.instant at h0
          rw [hb, hbm] at h0
          refine ⟨hy1, hm', ?_, ?_, ?_, ?_⟩ <;> omega
  · rintro ⟨h1, h2, h3, h4, h5, h6⟩
    unfold Civil.instant
    rw [h1, h2, h3, h4, h5, h6]
    decide

/-! ## The parsed instant -/

/-- C7 (as amended): for each formatter and every date and time of the years
0 to 9999 written in its layout (with any weekday name, and for
`RemoteOkFormatter` any offset below 24 hours), the `Date` of the record is
the instant the string denotes, the offset applied. It is not the zero time
from year 2 on, and it is the zero time exactly when the instant denoted is
January 1, year 1, 00:00:00 UTC. The three example strings give
2020-01-13 17:33:38 UTC, Unix time 1578936818. -/
theorem Date_is_the_instant_denoted :
    (∀ (wd : Nat) (c : Civil) (j : Job), wd < 7 → c.valid →
      j.DateString = String.mk (formatGitHub wd c) →
      (GitHubFormatter.stamp j).Date = ⟨c.instant 0, 0, time.Location.UTC⟩ ∧
      (2 ≤ c.year → (GitHubFormatter.stamp j).Date.IsZero = false) ∧
      ((GitHubFormatter.stamp j).Date.IsZero = true ↔
        (c.year = 1 ∧ c.month = 1 ∧ c.day = 1 ∧ c.hour = 0 ∧ c.minute = 0 ∧ c.second = 0))) ∧
    (∀ (wd : Nat) (c : Civil) (j : Job), wd < 7 → c.valid →
      j.DateString = String.mk (formatStackOverflow wd c) →
      (StackOverflowFormatter.stamp j).Date = ⟨c.instant 0, 0, time.Location.UTC⟩ ∧
      (2 ≤ c.year → (StackOverflowFormatter.stamp j).Date.IsZero = false) ∧
      ((StackOverflowFormatter.stamp j).Date.IsZero = true ↔
        (c.year = 1 ∧ c.month = 1 ∧ c.day = 1 ∧ c.hour = 0 ∧ c.minute = 0 ∧ c.second = 0))) ∧
    (∀ (c : Civil) (west : Bool) (oh om : Nat) (j : RemoteOkFormatter.job), c.valid →
      oh < 24 → om < 60 →
      j.DateString = String.mk (formatRemoteOk c west oh om) →
      (RemoteOkFormatter.build j).Date =
        ⟨c.instant (offsetSeconds west oh om), 0,
          time.Location.fixed (offsetSeconds west oh om)⟩ ∧
      (2 ≤ c.year → (RemoteOkFormatter.build j).Date.IsZero = false) ∧
      ((RemoteOkFormatter.build j).Date.IsZero = true ↔
        c.instant (offsetSeconds west oh om) = 0)) ∧
    ((GitHubFormatter.stamp (Sample.jobOf "g1" "Mon Jan 13 17:33:38 UTC 2020")).Date.Unix =
        1578936818 ∧
      (StackOverflowFormatter.stamp (Sample.jobOf "s1" "Mon, 13 Jan 2020 17:33:38 Z")).Date.Unix =
        1578936818 ∧
      (RemoteOkFormatter.build
        (Sample.itemOf "r1" "2020-01-13T09:33:38-08:00" "" "")).Date.Unix = 1578936818 ∧
      Civil.instant ⟨2020, 1, 13, 17, 33, 38⟩ 0 - time.unixToInternal = 1578936818) := by
  refine ⟨?_, ?_, ?_, ?_⟩
  · intro wd c j hwd hc hj
    have hD : (GitHubFormatter.stamp j).Date = ⟨c.instant 0, 0, time.Location.UTC⟩ := by
      simp only [GitHubFormatter.stamp, hj, Parse_GitHub_format wd hwd c hc, Option.getD_some]
    rw [hD]
    refine ⟨rfl, ?_, ?_⟩
    · intro hy
      have := instant_pos_of_year c hc 0 (by omega) hy
      simp only [time.Time.IsZero, Bool.and_eq_false_iff, beq_eq_false_iff_ne, ne_eq]
      left
      omega
    · rw [← instant_zero_iff c hc]
      simp [time.Time.IsZero]
  · intro wd c j hwd hc hj
    have hD : (StackOverflowFormatter.stamp j).Date = ⟨c.instant 0, 0, time.Location.UTC⟩ := by
      simp only [StackOverflowFormatter.stamp, hj, Parse_StackOverflow_format wd hwd c hc,
        Option.getD_some]
    rw [hD]
    refine ⟨rfl, ?_, ?_⟩
    · intro hy
      have := instant_pos_of_year c hc 0 (by omega) hy
      simp only [time.Time.IsZero, Bool.and_eq_false_iff, beq_eq_false_iff_ne, ne_eq]
      left
      omega
    · rw [← instant_zero_iff c hc]
      simp [time.Time.IsZero]
  · intro c west oh om j hc hoh hom hj
    have hD : (RemoteOkFormatter.build j).Date =
        ⟨c.instant (offsetSeconds west oh om), 0,
          time.Location.fixed (offsetSeconds west oh om)⟩ := by
      simp only [RemoteOkFormatter.build, hj, Parse_RemoteOk_format c hc west oh om hoh hom,
        Option.getD_some]
    rw [hD]
    refine ⟨rfl, ?_, ?_⟩
    · intro hy
      have hoff : offsetSeconds west oh om ≤ 86400 := by
        unfold offsetSeconds
        split <;> omega
      have := instant_pos_of_year c hc _ hoff hy
      simp only [time.Time.IsZero, Bool.and_eq_false_iff, beq_eq_false_iff_ne, ne_eq]
      left
      omega
    · simp [time.Time.IsZero]
  · exact ⟨by decide, by decide, by decide, by decide⟩

theorem Date_is_the_instant_denoted_witness :
    String.mk (formatGitHub 1 ⟨2020, 1, 13, 17, 33, 38⟩) = "Mon Jan 13 17:33:38 UTC 2020" ∧
    (GitHubFormatter.stamp Sample.g1).Date = ⟨63714533618, 0, time.Location.UTC⟩ ∧
    String.mk (formatRemoteOk ⟨2020, 1, 13, 9, 33, 38⟩ true 8 0) = "2020-01-13T09:33:38-08:00" ∧
    (RemoteOkFormatter.build Sample.r1).Date =
      ⟨63714533618, 0, time.Location.fixed (-28800)⟩ :=
  ⟨by decide,
   (Date_is_the_instant_denoted.1 1 ⟨2020, 1, 13, 17, 33, 38⟩ Sample.g1 (by decide) (by decide)
      (by decide)).1,
   by decide,
   (Date_is_the_instant_denoted.2.2.1 ⟨2020, 1, 13, 9, 33, 38⟩ true 8 0 Sample.r1 (by decide)
      (by decide) (by decide) (by decide)).1⟩

/-- C7 (as stated, refuted): `Mon Jan  1 00:00:00 UTC 0001` is a date written
in the layout of `GitHubFormatter` (it is how the layout writes January 1,
year 1, a Monday), `time.Parse` accepts it, and the `Date` of the record is
the zero time. -/
theorem formatted_date_with_zero_Date :
    Civil.valid ⟨1, 1, 1, 0, 0, 0⟩ ∧
    String.mk (formatGitHub 1 ⟨1, 1, 1, 0, 0, 0⟩) = "Mon Jan  1 00:00:00 UTC 0001" ∧
    time.Parse time.layoutGitHub "Mon Jan  1 00:00:00 UTC 0001" = some time.Time.zero ∧
    (GitHubFormatter.stamp Sample.g3).Date.IsZero = true ∧
    (∃ recs, GitHubFormatter.Format Sample.env Sample.githubDated = Outcome.returned recs ∧
      recs.elems.get? 2 = some (some { Sample.g3 with
        Date := time.Time.zero, Source := "Github Jobs" })) := by
  refine ⟨by decide, by decide, by decide, by decide, _, rfl, ?_⟩
  decide
